import Mathlib

/-!
Verification development for the seaSafeSimulator repository.

The collision-avoidance core of the repository is shallowly embedded here:
Python classes become Lean structures, mutating methods become functions
returning the updated value, and numeric state is modelled with exact
rationals.  Every comparison that the source performs on a Euclidean
distance (a square root) is modelled on the squared distance through the
helpers dLt and dGt below, which encode exactly the same real-number
comparison.  The only transcendental the source uses is math.atan2 (wrapped
by math.degrees); it is abstracted as an explicit functional parameter
at2 : rational y and x to a rational angle in degrees, so that every decision
branch of the source remains fully and faithfully embedded while the
development stays executable.
-/

namespace SeaSafe

/-- Proximity status of a vessel, the strings Green, Orange, Red in source. -/
inductive Status
| Green
| Orange
| Red
deriving DecidableEq

/-- COLREGS role labels: the strings Give-way / Stand-on / Unknown. -/
inductive Role
| giveWay
| standOn
| unknown
deriving DecidableEq

/-- Encounter labels produced by the two classifiers: the pairwise
ColregsAlgorithm produces headOn, overtaking, crossing; the tree-search
variant produces headOn, crossingGiveWay, crossingStandOn, overtaking,
unknownScen. -/
inductive ScenarioKind
| headOn
| overtaking
| crossing
| crossingGiveWay
| crossingStandOn
| unknownScen
deriving DecidableEq

/-- simulator/position.py: a simple x, y holder (nautical miles). -/
structure Position where
  x : ℚ
  y : ℚ
deriving DecidableEq

/-- simulator/ship.py Ship, restricted to the fields the algorithms read or
write.  The derived direction unit vector is kept as a field (dirx, diry),
exactly as in the source; width, length and the source position are never
read by the algorithm code and are omitted. -/
structure Ship where
  cx_nm : ℚ
  cy_nm : ℚ
  dirx : ℚ
  diry : ℚ
  currentSpeed : ℚ
  maxSpeed : ℚ
  destx : ℚ
  desty : ℚ
  status : Status
  scenario_kind : Option ScenarioKind
  role : Role
  is_avoiding : Bool
  in_danger : Bool
deriving DecidableEq

instance : Inhabited Ship :=
  ⟨⟨0, 0, 0, 0, 0, 0, 0, 0, Status.Green, none, Role.unknown, false, false⟩⟩

/-- simulator/action.py style Action record as used by algorithm.py:
a target ship id with a heading delta (degrees) and speed delta (knots). -/
structure Action where
  shipId : ℕ
  headingChange : ℚ
  speedChange : ℚ
deriving DecidableEq

/-- The square of the planar Euclidean distance; the source computes
math.sqrt of this quantity (_distance_nm). -/
def distSq (x1 y1 x2 y2 : ℚ) : ℚ :=
  (x1 - x2) * (x1 - x2) + (y1 - y2) * (y1 - y2)

/-- dLt d2 c encodes the real comparison sqrt d2 < c for d2 ≥ 0:
it holds iff c is nonnegative and d2 < c^2.  All strict-below-threshold
distance tests of the source are embedded through this helper. -/
def dLt (d2 c : ℚ) : Bool :=
  decide (0 ≤ c) && decide (d2 < c * c)

/-- dGt d2 c encodes the real comparison sqrt d2 > c for d2 ≥ 0:
it holds iff c is negative, or c * c < d2. -/
def dGt (d2 c : ℚ) : Bool :=
  decide (c < 0) || decide (c * c < d2)

/-- Python's modulo on rationals (sign follows the divisor); for a positive
divisor the result lies in [0, divisor). -/
def pymod (a b : ℚ) : ℚ :=
  a - b * (Int.floor (a / b) : ℤ)

/-- Python's int() conversion: truncation toward zero. -/
def pyTrunc (q : ℚ) : ℤ :=
  if q < 0 then -(Int.floor (-q)) else Int.floor q

theorem dLt_iff_sqrt (d2 c : ℚ) (h : 0 ≤ d2) :
    dLt d2 c = true ↔ Real.sqrt (d2 : ℝ) < (c : ℝ) := by
  unfold dLt
  rw [Bool.and_eq_true, decide_eq_true_eq, decide_eq_true_eq]
  constructor
  · rintro ⟨hc, h2⟩
    rw [Real.sqrt_lt (by exact_mod_cast h) (by exact_mod_cast hc)]
    have h2' : (d2 : ℚ) < c ^ 2 := by rw [sq]; exact h2
    exact_mod_cast h2'
  · intro hs
    have hc : (0 : ℚ) ≤ c := by
      have := le_trans (Real.sqrt_nonneg ((d2 : ℝ))) hs.le
      exact_mod_cast this
    refine ⟨hc, ?_⟩
    rw [Real.sqrt_lt (by exact_mod_cast h) (by exact_mod_cast hc)] at hs
    have hs' : (d2 : ℚ) < c ^ 2 := by exact_mod_cast hs
    rw [sq] at hs'
    exact hs'

theorem dGt_iff_sqrt (d2 c : ℚ) (h : 0 ≤ d2) :
    dGt d2 c = true ↔ (c : ℝ) < Real.sqrt (d2 : ℝ) := by
  unfold dGt
  rw [Bool.or_eq_true, decide_eq_true_eq, decide_eq_true_eq]
  constructor
  · rintro (hc | h2)
    · exact lt_of_lt_of_le (by exact_mod_cast hc) (Real.sqrt_nonneg _)
    · rcases lt_or_le c 0 with hc | hc
      · exact lt_of_lt_of_le (by exact_mod_cast hc) (Real.sqrt_nonneg _)
      · rw [Real.lt_sqrt (by exact_mod_cast hc)]
        have h2' : (c : ℚ) ^ 2 < d2 := by rw [sq]; exact h2
        exact_mod_cast h2'
  · intro hs
    rcases lt_or_le c 0 with hc | hc
    · exact Or.inl hc
    · right
      rw [Real.lt_sqrt (by exact_mod_cast hc)] at hs
      have hs' : (c : ℚ) ^ 2 < d2 := by exact_mod_cast hs
      rw [sq] at hs'
      exact hs'

/-- simulator/ship.py Ship.future_position: predicted position after
future_time_seconds at constant current direction and speed.  The method
body contains no assignment to any field, so it is embedded without a Ship
result: it cannot mutate the vessel. -/
def Ship.future_position (s : Ship) (future_time_seconds : ℚ) : Position :=
  let nm_per_sec := s.currentSpeed / 3600
  let step_dist := nm_per_sec * future_time_seconds
  ⟨s.cx_nm + s.dirx * step_dist, s.cy_nm + s.diry * step_dist⟩

/-- simulator/ship.py Ship.update_position: advance toward the destination;
snap exactly onto the destination when the remaining distance is below the
distance that would be covered; do nothing when the remaining distance is
at most 1e-6. -/
def Ship.update_position (s : Ship) (delta_seconds : ℚ) : Ship :=
  let nm_per_sec := s.currentSpeed / 3600
  let d2 := distSq s.destx s.desty s.cx_nm s.cy_nm
  let step_dist := nm_per_sec * delta_seconds
  if dGt d2 (1 / 1000000) then
    if dLt d2 step_dist then
      { s with cx_nm := s.destx, cy_nm := s.desty }
    else
      { s with cx_nm := s.cx_nm + s.dirx * step_dist,
               cy_nm := s.cy_nm + s.diry * step_dist }
  else s

/-- simulator/ship.py Ship.set_status: store the display status and keep
the derived in_danger flag consistent (true iff Orange or Red). -/
def Ship.set_status (s : Ship) (st : Status) : Ship :=
  { s with status := st,
           in_danger := st = Status.Orange ∨ st = Status.Red }

/-- main.py ScenarioSimulation.__init__ horizon-steps derivation:
steps_per_hour = 3600 / physics_step, then int(horizon_nm * steps_per_hour
/ max_speed_knots) when max_speed_knots > 0, else 0.  main.py uses
PHYSICS_STEP = 15. -/
def horizon_steps_main (horizon_nm max_speed_knots physics_step : ℚ) : ℤ :=
  if max_speed_knots > 0 then
    pyTrunc (horizon_nm * (3600 / physics_step) / max_speed_knots)
  else 0

/-- Modelled from the spec: the claimed derivation
ceil(horizon_nm / (max_speed_knots * step_duration_seconds / 3600)) when
max_speed_knots > 0, else 0. -/
def horizon_steps_claimed (horizon_nm max_speed_knots physics_step : ℚ) : ℤ :=
  if max_speed_knots > 0 then
    Int.ceil (horizon_nm / (max_speed_knots * physics_step / 3600))
  else 0

/-- The squared distance between the two predicted positions of a pair after
t seconds; shorthand for stating properties of the future sweeps. -/
def pairDist2At (a b : Ship) (t : ℚ) : ℚ :=
  distSq (a.future_position t).x (a.future_position t).y
    (b.future_position t).x (b.future_position t).y

/-- algorithm.py ColregsAlgorithm.detect_future_collision, future loop: the
source iterates step_idx over range(0, horizon_steps + 1), predicts both
positions at step_idx * 15 seconds (15 is hard-coded there) and breaks at
the first distance below thr; thr is the caller's 2 * safety_zone_nm. -/
def futureHit (ship_a ship_b : Ship) (horizon_steps : ℕ) (thr : ℚ) : Bool :=
  (List.range (horizon_steps + 1)).any fun step_idx =>
    let future_time_sec : ℚ := (step_idx : ℚ) * 15
    dLt (pairDist2At ship_a ship_b future_time_sec) thr

/-- algorithm.py ColregsAlgorithm.detect_future_collision: Green when the
pair is beyond horizon_nm, Red on an immediate violation of twice the
safety-zone radius, Orange on a sampled future violation, Green otherwise.
Both components of the result are always the same status. -/
def detect_future_collision (ship_a ship_b : Ship) (horizon_steps : ℕ)
    (safety_zone_nm horizon_nm : ℚ) : Status × Status :=
  let dist_now2 := distSq ship_a.cx_nm ship_a.cy_nm ship_b.cx_nm ship_b.cy_nm
  if dGt dist_now2 horizon_nm then (Status.Green, Status.Green)
  else
    let min_dist_for_collision := 2 * safety_zone_nm
    if dLt dist_now2 min_dist_for_collision then (Status.Red, Status.Red)
    else if futureHit ship_a ship_b horizon_steps min_dist_for_collision then
      (Status.Orange, Status.Orange)
    else (Status.Green, Status.Green)

/-- algorithm.py ColregsAlgorithm._check_future_safety: true when the pair
is beyond horizon_nm or no sampled offset in 0..horizon_steps violates twice
the safety-zone radius. -/
def check_future_safety (ship_a ship_b : Ship) (horizon_steps : ℕ)
    (safety_zone_nm horizon_nm : ℚ) : Bool :=
  let dist_now2 := distSq ship_a.cx_nm ship_a.cy_nm ship_b.cx_nm ship_b.cy_nm
  if dGt dist_now2 horizon_nm then true
  else !(futureHit ship_a ship_b horizon_steps (2 * safety_zone_nm))

/-- tree_search.py TreeSearchAlgorithm._is_immediate_collision: current
distance below twice the safety-zone radius. -/
def tree_is_immediate (ship_i ship_j : Ship) (safety_zone_nm : ℚ) : Bool :=
  dLt (distSq ship_i.cx_nm ship_i.cy_nm ship_j.cx_nm ship_j.cy_nm)
    (2 * safety_zone_nm)

/-- tree_search.py TreeSearchAlgorithm._detect_future_collision: iterates
step over range(1, horizon_steps + 1) at physics_step seconds per step and
compares the predicted distance against safety_zone_nm itself — the single
radius, NOT the doubled collision distance of the immediate check. -/
def tree_detect_future (ship_i ship_j : Ship) (safety_zone_nm : ℚ)
    (horizon_steps : ℕ) (physics_step : ℚ) : Bool :=
  (List.range' 1 horizon_steps).any fun step =>
    let future_time_sec : ℚ := (step : ℚ) * physics_step
    dLt (pairDist2At ship_i ship_j future_time_sec) safety_zone_nm

/-- Modelled from the spec (the reading claim C2 takes): a future check over
offsets k in 1..=horizon_steps whose threshold is the collision distance,
twice the safety-zone radius — the same threshold the immediate check uses. -/
def check_future_claimed (ship_i ship_j : Ship) (safety_zone_nm : ℚ)
    (horizon_steps : ℕ) (physics_step : ℚ) : Bool :=
  (List.range' 1 horizon_steps).any fun step =>
    let future_time_sec : ℚ := (step : ℚ) * physics_step
    dLt (pairDist2At ship_i ship_j future_time_sec) (2 * safety_zone_nm)

/-- Replace the ship at an index of the list (Python mutates the element in
place); out-of-range indices leave the list unchanged. -/
def modifyShip (f : Ship → Ship) : ℕ → List Ship → List Ship
  | _, [] => []
  | 0, s :: t => f s :: t
  | n + 1, s :: t => s :: modifyShip f n t

/-- The index pairs (i, j), i < j < n, in the iteration order of the nested
loops of tree_search.py detect_collisions. -/
def pairIndices (n : ℕ) : List (ℕ × ℕ) :=
  (List.range n).flatMap fun i =>
    (List.range' (i + 1) (n - (i + 1))).map fun j => (i, j)

/-- One iteration of the pair loop of tree_search.py detect_collisions:
an immediate collision sets both ships Red; otherwise a future collision
sets each of them Orange unless it is already Red; otherwise nothing.
Either collision kind appends the pair to the collision list. -/
def treeDetectStep (safety_zone_nm : ℚ) (horizon_steps : ℕ) (physics_step : ℚ)
    (acc : List Ship × List (ℕ × ℕ)) (pr : ℕ × ℕ) : List Ship × List (ℕ × ℕ) :=
  let ships := acc.1
  let ship_i := ships.getD pr.1 default
  let ship_j := ships.getD pr.2 default
  if tree_is_immediate ship_i ship_j safety_zone_nm then
    (modifyShip (fun s => s.set_status Status.Red) pr.2
      (modifyShip (fun s => s.set_status Status.Red) pr.1 ships),
     acc.2 ++ [pr])
  else if tree_detect_future ship_i ship_j safety_zone_nm horizon_steps physics_step then
    (modifyShip (fun s => if s.status ≠ Status.Red then s.set_status Status.Orange else s) pr.2
      (modifyShip (fun s => if s.status ≠ Status.Red then s.set_status Status.Orange else s) pr.1 ships),
     acc.2 ++ [pr])
  else acc

/-- Final loop of tree_search.py detect_collisions: every ship not Orange
and not Red is reset to Green. -/
def treeFinalGreen (ships : List Ship) : List Ship :=
  ships.map fun s =>
    if s.status ≠ Status.Orange ∧ s.status ≠ Status.Red then
      s.set_status Status.Green
    else s

/-- tree_search.py TreeSearchAlgorithm.detect_collisions: converts the
observation's safety_zone_m to nautical miles, folds the pair loop over all
index pairs i < j in loop order, then applies the final Green reset.  Note
there is no horizon_nm distance gate anywhere in this variant. -/
def detect_collisions (safety_zone_m : ℚ) (horizon_steps : ℕ)
    (physics_step : ℚ) (ships : List Ship) : List Ship × List (ℕ × ℕ) :=
  let safety_zone_nm := safety_zone_m / 1852
  let r := (pairIndices ships.length).foldl
    (treeDetectStep safety_zone_nm horizon_steps physics_step) (ships, [])
  (treeFinalGreen r.1, r.2)

/-- The severity tree_search.py detect_collisions derives for one pair:
Red on immediate violation, Orange on a sampled future violation, Green
otherwise. -/
def pairSeverity (safety_zone_nm : ℚ) (horizon_steps : ℕ) (physics_step : ℚ)
    (ship_i ship_j : Ship) : Status :=
  if tree_is_immediate ship_i ship_j safety_zone_nm then Status.Red
  else if tree_detect_future ship_i ship_j safety_zone_nm horizon_steps physics_step then
    Status.Orange
  else Status.Green

/-- Severity join: Red dominates Orange dominates Green. -/
def smax : Status → Status → Status
  | Status.Red, _ => Status.Red
  | _, Status.Red => Status.Red
  | Status.Orange, _ => Status.Orange
  | _, Status.Orange => Status.Orange
  | Status.Green, Status.Green => Status.Green

/-- Most severe status of a list (Green when empty). -/
def supStatus (l : List Status) : Status :=
  l.foldl smax Status.Green

/-- The kinematic sub-state all collision checks read: position, direction
and current speed. -/
def kin (s : Ship) : ℚ × ℚ × ℚ × ℚ × ℚ :=
  (s.cx_nm, s.cy_nm, s.dirx, s.diry, s.currentSpeed)

/-- ship.py get_heading_from_direction.  at2 abstracts the composition
math.degrees(math.atan2 y x), the source's only transcendental, as an
explicit functional parameter (its real value lies in (-180,180]); the
source's negative-angle adjustment into [0,360) is embedded as written. -/
def get_heading_from_direction (at2 : ℚ → ℚ → ℚ) (s : Ship) : ℚ :=
  let angle_deg := at2 s.diry s.dirx
  if angle_deg < 0 then angle_deg + 360 else angle_deg

/-- algorithm.py ColregsAlgorithm._relative_bearing: absolute bearing of
ship_to from ship_from (at2 value adjusted into [0,360)), minus the heading,
taken modulo 360. -/
def relative_bearing (at2 : ℚ → ℚ → ℚ) (ship_from ship_to : Ship) : ℚ :=
  let bearing_abs0 := at2 (ship_to.cy_nm - ship_from.cy_nm) (ship_to.cx_nm - ship_from.cx_nm)
  let bearing_abs := if bearing_abs0 < 0 then bearing_abs0 + 360 else bearing_abs0
  pymod (bearing_abs - get_heading_from_direction at2 ship_from) 360

/-- algorithm.py ColregsAlgorithm._is_overtaking: heading difference folded
into [0,180] below 20, the other vessel within 30 degrees of dead ahead,
and strictly greater speed. -/
def is_overtaking (at2 : ℚ → ℚ → ℚ) (overtaker other : Ship) : Bool :=
  let heading_o := get_heading_from_direction at2 overtaker
  let heading_t := get_heading_from_direction at2 other
  let heading_diff := |pymod (heading_o - heading_t + 180) 360 - 180|
  if heading_diff < 20 then
    let rel_brg := relative_bearing at2 overtaker other
    if rel_brg < 30 ∨ rel_brg > 330 then
      decide (overtaker.currentSpeed > other.currentSpeed)
    else false
  else false

/-- algorithm.py ColregsAlgorithm._determine_colreg_scenario. -/
def determine_colreg_scenario (at2 : ℚ → ℚ → ℚ) (ship_a ship_b : Ship) : ScenarioKind :=
  let heading_a := get_heading_from_direction at2 ship_a
  let heading_b := get_heading_from_direction at2 ship_b
  let heading_diff := |pymod (heading_a - heading_b + 180) 360 - 180|
  let rel_brg_a := relative_bearing at2 ship_a ship_b
  if heading_diff > 150 ∧ (rel_brg_a < 30 ∨ rel_brg_a > 330) then ScenarioKind.headOn
  else if is_overtaking at2 ship_a ship_b || is_overtaking at2 ship_b ship_a then
    ScenarioKind.overtaking
  else ScenarioKind.crossing

/-- algorithm.py ColregsAlgorithm._assign_roles: head-on makes both ships
give-way; overtaking gives way to the _is_overtaking vessel; any other
scenario (crossing) gives way to ship_a iff the relative bearing of ship_b
from ship_a lies in [0,180). -/
def assign_roles (at2 : ℚ → ℚ → ℚ) (ship_a ship_b : Ship) (sc : ScenarioKind) : Ship × Ship :=
  if sc = ScenarioKind.headOn then
    ({ship_a with role := Role.giveWay}, {ship_b with role := Role.giveWay})
  else if sc = ScenarioKind.overtaking then
    if is_overtaking at2 ship_a ship_b then
      ({ship_a with role := Role.giveWay}, {ship_b with role := Role.standOn})
    else
      ({ship_a with role := Role.standOn}, {ship_b with role := Role.giveWay})
  else
    let brg_a := relative_bearing at2 ship_a ship_b
    if 0 ≤ brg_a ∧ brg_a < 180 then
      ({ship_a with role := Role.giveWay}, {ship_b with role := Role.standOn})
    else
      ({ship_a with role := Role.standOn}, {ship_b with role := Role.giveWay})

/-- algorithm.py ColregsAlgorithm._handle_red: when neither ship is already
avoiding, both receive a starboard turn of 20 degrees with a 3 knot speed
reduction and both avoidance flags are set; otherwise nothing happens. -/
def handle_red (ship_a ship_b : Ship) : List Action × Ship × Ship :=
  if !ship_a.is_avoiding && !ship_b.is_avoiding then
    ([⟨0, 20, -3⟩, ⟨1, 20, -3⟩],
     {ship_a with is_avoiding := true}, {ship_b with is_avoiding := true})
  else ([], ship_a, ship_b)

/-- algorithm.py ColregsAlgorithm._handle_orange: nothing happens when
either ship is already avoiding; otherwise the give-way side(s) of the
classified scenario receive a 15 degree turn and their flags are set. -/
def handle_orange (at2 : ℚ → ℚ → ℚ) (ship_a ship_b : Ship) : List Action × Ship × Ship :=
  if ship_a.is_avoiding || ship_b.is_avoiding then ([], ship_a, ship_b)
  else
    let sc := determine_colreg_scenario at2 ship_a ship_b
    if sc = ScenarioKind.headOn then
      ([⟨0, 15, 0⟩, ⟨1, 15, 0⟩],
       {ship_a with is_avoiding := true}, {ship_b with is_avoiding := true})
    else if sc = ScenarioKind.overtaking then
      if is_overtaking at2 ship_a ship_b then
        ([⟨0, 15, 0⟩], {ship_a with is_avoiding := true}, ship_b)
      else
        ([⟨1, 15, 0⟩], ship_a, {ship_b with is_avoiding := true})
    else
      let brg_a := relative_bearing at2 ship_a ship_b
      if 0 ≤ brg_a ∧ brg_a < 180 then
        ([⟨0, 15, 0⟩], {ship_a with is_avoiding := true}, ship_b)
      else
        ([⟨1, 15, 0⟩], ship_a, {ship_b with is_avoiding := true})

/-- The desired heading computed inside algorithm.py _revert_ship: the
direct bearing from the current position to the destination, adjusted into
[0,360), or 0 when the ship is within 1e-6 (L1 norm) of the destination. -/
def desired_heading_to_dest (at2 : ℚ → ℚ → ℚ) (ship : Ship) : ℚ :=
  let dx := ship.destx - ship.cx_nm
  let dy := ship.desty - ship.cy_nm
  let desired0 := if |dx| + |dy| > 1 / 1000000 then at2 dy dx else 0
  if desired0 < 0 then desired0 + 360 else desired0

/-- The heading delta algorithm.py _revert_ship computes: the difference
from the current heading to the desired direct bearing, folded into
[-180,180) by the (x + 180) mod 360 - 180 idiom. -/
def revert_heading_delta (at2 : ℚ → ℚ → ℚ) (ship : Ship) : ℚ :=
  pymod (desired_heading_to_dest at2 ship - get_heading_from_direction at2 ship + 180) 360 - 180

/-- algorithm.py ColregsAlgorithm._revert_ship: recompute the direct
bearing to the destination (0 when the ship sits on it), fold the heading
difference into [-180,180), compute the speed difference back to maxSpeed,
emit one Action only when either difference exceeds 1e-3, and clear the
avoidance flag in every case. -/
def revert_ship (at2 : ℚ → ℚ → ℚ) (ship_id : ℕ) (ship : Ship) : List Action × Ship :=
  let heading_diff := revert_heading_delta at2 ship
  let speed_diff := ship.maxSpeed - ship.currentSpeed
  let acts : List Action :=
    if |heading_diff| > 1 / 1000 ∨ |speed_diff| > 1 / 1000 then
      [⟨ship_id, heading_diff, speed_diff⟩]
    else []
  (acts, {ship with is_avoiding := false})

/-- The Green branch of algorithm.py ColregsAlgorithm.step: walk all ships
with their indices and revert each one whose avoidance flag is set. -/
def revertAll (at2 : ℚ → ℚ → ℚ) : ℕ → List Ship → List Action × List Ship
  | _, [] => ([], [])
  | i, s :: t =>
    if s.is_avoiding then
      let r := revert_ship at2 i s
      let rt := revertAll at2 (i + 1) t
      (r.1 ++ rt.1, r.2 :: rt.2)
    else
      let rt := revertAll at2 (i + 1) t
      (rt.1, s :: rt.2)

/-- The status pair algorithm.py ColregsAlgorithm.step computes for the two
tracked ships before branching: the detect_future_collision verdict, except
that with either ship flagged in_danger a Green verdict is kept only when
_check_future_safety confirms the whole horizon, otherwise the pair is held
at Orange. -/
def pairVerdict (ship_a ship_b : Ship) (horizon_steps : ℕ)
    (safety_zone_nm horizon_nm : ℚ) : Status × Status :=
  let det := detect_future_collision ship_a ship_b horizon_steps safety_zone_nm horizon_nm
  if ship_a.in_danger || ship_b.in_danger then
    if det = (Status.Green, Status.Green)
        && !check_future_safety ship_a ship_b horizon_steps safety_zone_nm horizon_nm then
      (Status.Orange, Status.Orange)
    else det
  else det

/-- algorithm.py ColregsAlgorithm.step.  Returns the status list the source
returns (the untouched per-ship Green list when fewer than 2 ships,
otherwise the 2-element pair verdict), the emitted actions, and the updated
ships.  Only the first two ships are tracked by the verdict; the Green
branch reverts every avoiding ship of the whole list. -/
def colregsStep (at2 : ℚ → ℚ → ℚ) (ships : List Ship) (horizon_steps : ℕ)
    (safety_zone_nm horizon_nm : ℚ) : List Status × List Action × List Ship :=
  match ships with
  | [] => ([], [], [])
  | [s] => ([Status.Green], [], [s])
  | ship_a :: ship_b :: rest =>
    let pair := pairVerdict ship_a ship_b horizon_steps safety_zone_nm horizon_nm
    let a1 := ship_a.set_status pair.1
    let b1 := ship_b.set_status pair.2
    if pair.1 = Status.Red ∨ pair.2 = Status.Red then
      let sc := determine_colreg_scenario at2 a1 b1
      let a2 := {a1 with scenario_kind := some sc}
      let b2 := {b1 with scenario_kind := some sc}
      let ab := assign_roles at2 a2 b2 sc
      let r := handle_red ab.1 ab.2
      ([pair.1, pair.2], r.1, r.2.1 :: r.2.2 :: rest)
    else if pair.1 = Status.Orange ∨ pair.2 = Status.Orange then
      let sc := determine_colreg_scenario at2 a1 b1
      let a2 := {a1 with scenario_kind := some sc}
      let b2 := {b1 with scenario_kind := some sc}
      let ab := assign_roles at2 a2 b2 sc
      let r := handle_orange at2 ab.1 ab.2
      ([pair.1, pair.2], r.1, r.2.1 :: r.2.2 :: rest)
    else
      let r := revertAll at2 0 (a1 :: b1 :: rest)
      ([pair.1, pair.2], r.1, r.2)

/-- The normalized relative angle of tree_search.py
_determine_colreg_scenario: heading_i_deg stands for the first ship's
observed heading in degrees and phi_deg for math.degrees(math.atan2(dy,dx))
of the connecting vector adjusted into [0,360) (the phi_AB computation);
their difference is normalized once into [-180,180] exactly as the source
does in radians. -/
def tree_norm_q (heading_i_deg phi_deg : ℚ) : ℚ :=
  let q0 := phi_deg - heading_i_deg
  if q0 > 180 then q0 - 360 else if q0 < -180 then q0 + 360 else q0

/-- tree_search.py TreeSearchAlgorithm._determine_colreg_scenario:
classifies the normalized relative angle by the COLREGS bearing bands. -/
def tree_determine_scenario (heading_i_deg phi_deg : ℚ) : ScenarioKind :=
  let deg_q := tree_norm_q heading_i_deg phi_deg
  if -5 ≤ deg_q ∧ deg_q ≤ 5 then ScenarioKind.headOn
  else if -112.5 ≤ deg_q ∧ deg_q < -5 then ScenarioKind.crossingGiveWay
  else if 5 < deg_q ∧ deg_q ≤ 112.5 then ScenarioKind.crossingStandOn
  else if (112.5 < deg_q ∧ deg_q ≤ 180) ∨ (-180 ≤ deg_q ∧ deg_q < -112.5) then
    ScenarioKind.overtaking
  else ScenarioKind.unknownScen

/-- tree_search.py TreeSearchAlgorithm._assign_roles, a pure function of the
scenario label and the two ships' speeds. -/
def tree_assign_roles (sc : ScenarioKind) (speed_i speed_j : ℚ) : Role × Role :=
  if sc = ScenarioKind.headOn then (Role.giveWay, Role.giveWay)
  else if sc = ScenarioKind.overtaking then
    if speed_i > speed_j then (Role.giveWay, Role.standOn)
    else (Role.standOn, Role.giveWay)
  else if sc = ScenarioKind.crossingGiveWay then (Role.giveWay, Role.standOn)
  else if sc = ScenarioKind.crossingStandOn then (Role.standOn, Role.giveWay)
  else (Role.unknown, Role.unknown)

end SeaSafe

namespace SeaSafe

/-- C8: Ship.future_position is a pure function of the kinematic state only:
it returns the position reached after the given seconds at constant current
direction and speed, at zero seconds it returns the current position, and
two ships agreeing on position, direction and speed (whatever their status,
flags, roles or destination) get the same prediction; the embedding of the
method body has no Ship output because the source assigns no field. -/
theorem future_position_pure (s s' : Ship) (t : ℚ)
    (hcx : s.cx_nm = s'.cx_nm) (hcy : s.cy_nm = s'.cy_nm)
    (hdx : s.dirx = s'.dirx) (hdy : s.diry = s'.diry)
    (hsp : s.currentSpeed = s'.currentSpeed) :
    s.future_position t =
      ⟨s.cx_nm + s.dirx * (s.currentSpeed / 3600 * t),
       s.cy_nm + s.diry * (s.currentSpeed / 3600 * t)⟩ ∧
    s.future_position 0 = ⟨s.cx_nm, s.cy_nm⟩ ∧
    s.future_position t = s'.future_position t := by
  refine ⟨rfl, ?_, ?_⟩
  · simp [Ship.future_position]
  · simp [Ship.future_position, hcx, hcy, hdx, hdy, hsp]

/-- Witness for C8 at concrete inputs: two ships sharing kinematic state but
differing in status, avoidance flag and destination predict the same
position; the common prediction after 3600 seconds is as computed. -/
theorem future_position_pure_witness :
    (Ship.future_position
      ⟨1, 2, 1, 0, 10, 20, 9, 9, Status.Green, none, Role.unknown, false, false⟩ 3600 =
        ⟨11, 2⟩) ∧
    (Ship.future_position
      ⟨1, 2, 1, 0, 10, 20, 9, 9, Status.Green, none, Role.unknown, false, false⟩ 3600 =
     Ship.future_position
      ⟨1, 2, 1, 0, 10, 20, 7, 7, Status.Red, none, Role.giveWay, true, true⟩ 3600) := by
  have h := future_position_pure
    ⟨1, 2, 1, 0, 10, 20, 9, 9, Status.Green, none, Role.unknown, false, false⟩
    ⟨1, 2, 1, 0, 10, 20, 7, 7, Status.Red, none, Role.giveWay, true, true⟩
    3600 rfl rfl rfl rfl rfl
  refine ⟨?_, h.2.2⟩
  rw [h.1]
  norm_num

/-- C10: Ship.update_position snaps exactly onto the destination whenever the
remaining distance is greater than 1e-6 but smaller than the distance
currentSpeed/3600 * delta_seconds that would be covered, regardless of the
direction vector; and a ship whose remaining distance is at most 1e-6 is not
moved at all (the whole record is unchanged). -/
theorem update_position_snap (s : Ship) (delta_seconds : ℚ) :
    (dGt (distSq s.destx s.desty s.cx_nm s.cy_nm) (1 / 1000000) = true →
     dLt (distSq s.destx s.desty s.cx_nm s.cy_nm)
         (s.currentSpeed / 3600 * delta_seconds) = true →
     (s.update_position delta_seconds).cx_nm = s.destx ∧
     (s.update_position delta_seconds).cy_nm = s.desty) ∧
    (dGt (distSq s.destx s.desty s.cx_nm s.cy_nm) (1 / 1000000) = false →
     s.update_position delta_seconds = s) := by
  constructor
  · intro hfar hclose
    simp only [Ship.update_position]
    rw [if_pos hfar, if_pos hclose]
    exact ⟨rfl, rfl⟩
  · intro hnear
    simp only [Ship.update_position]
    rw [if_neg (by rw [hnear]; exact Bool.false_ne_true)]

/-- Witness for C10 at concrete inputs: a ship 0.001 NM short of its
destination but heading directly away from it (direction (1,0), destination
to its west) still snaps onto the destination, because the step distance
1 NM exceeds the remaining 0.001 NM; and a ship exactly at its destination
is left unchanged. -/
theorem update_position_snap_witness :
    ((Ship.update_position
        ⟨1/1000, 0, 1, 0, 3600, 3600, 0, 0, Status.Green, none, Role.unknown, false, false⟩
        1).cx_nm = 0 ∧
     (Ship.update_position
        ⟨1/1000, 0, 1, 0, 3600, 3600, 0, 0, Status.Green, none, Role.unknown, false, false⟩
        1).cy_nm = 0) ∧
    Ship.update_position
      ⟨5, 5, 1, 0, 10, 10, 5, 5, Status.Green, none, Role.unknown, false, false⟩ 1 =
      ⟨5, 5, 1, 0, 10, 10, 5, 5, Status.Green, none, Role.unknown, false, false⟩ := by
  constructor
  · exact (update_position_snap
      ⟨1/1000, 0, 1, 0, 3600, 3600, 0, 0, Status.Green, none, Role.unknown, false, false⟩
      1).1 (by norm_num [dGt, distSq]) (by norm_num [dLt, distSq])
  · exact (update_position_snap
      ⟨5, 5, 1, 0, 10, 10, 5, 5, Status.Green, none, Role.unknown, false, false⟩
      1).2 (by norm_num [dGt, distSq])

/-- C7 counterexample: with horizon_nm = 1, max_speed_knots = 7 and the
source's 15-second physics step, main.py computes int(1 * 240 / 7) = 34
while the claimed ceil derivation gives 35. -/
theorem horizon_steps_counterexample :
    horizon_steps_main 1 7 15 = 34 ∧ horizon_steps_claimed 1 7 15 = 35 ∧
    horizon_steps_main 1 7 15 ≠ horizon_steps_claimed 1 7 15 := by
  have h1 : horizon_steps_main 1 7 15 = 34 := by
    norm_num [horizon_steps_main, pyTrunc]
  have h2 : horizon_steps_claimed 1 7 15 = 35 := by
    rw [horizon_steps_claimed, if_pos (by norm_num)]
    rw [Int.ceil_eq_iff]
    constructor <;> norm_num
  exact ⟨h1, h2, by rw [h1, h2]; decide⟩

/-- C7 amended: for positive max speed, a nonnegative horizon and a positive
physics step, main.py derives horizon_steps as the FLOOR (Python int()
truncation) of horizon_nm / (max_speed_knots * step_duration_seconds /
3600), not the ceiling; when max_speed_knots is zero or negative it is 0. -/
theorem horizon_steps_main_floor (horizon_nm max_speed_knots physics_step : ℚ) :
    (max_speed_knots > 0 → 0 ≤ horizon_nm → 0 < physics_step →
      horizon_steps_main horizon_nm max_speed_knots physics_step =
        Int.floor (horizon_nm / (max_speed_knots * physics_step / 3600))) ∧
    (¬ max_speed_knots > 0 →
      horizon_steps_main horizon_nm max_speed_knots physics_step = 0) := by
  constructor
  · intro hms hhz hps
    have hq : horizon_nm * (3600 / physics_step) / max_speed_knots =
        horizon_nm / (max_speed_knots * physics_step / 3600) := by
      rw [← mul_div_assoc, div_div, div_div_eq_mul_div,
        mul_comm physics_step max_speed_knots]
    have hpos : 0 ≤ horizon_nm * (3600 / physics_step) / max_speed_knots := by
      apply div_nonneg
      · apply mul_nonneg hhz
        positivity
      · exact le_of_lt hms
    simp only [horizon_steps_main, if_pos hms, pyTrunc, hq]
    rw [if_neg (not_lt.mpr (hq ▸ hpos))]
  · intro h
    simp [horizon_steps_main, h]

/-- Witness for C7 amended at concrete inputs: 5 NM horizon at 20 knots with
15-second steps gives exactly 60 steps, and zero max speed gives 0. -/
theorem horizon_steps_main_floor_witness :
    horizon_steps_main 5 20 15 = Int.floor ((5 : ℚ) / (20 * 15 / 3600)) ∧
    horizon_steps_main 5 0 15 = 0 := by
  constructor
  · exact (horizon_steps_main_floor 5 20 15).1 (by norm_num) (by norm_num) (by norm_num)
  · exact (horizon_steps_main_floor 5 0 15).2 (by norm_num)

theorem pairDist2At_zero (a b : Ship) :
    pairDist2At a b 0 = distSq a.cx_nm a.cy_nm b.cx_nm b.cy_nm := by
  simp [pairDist2At, Ship.future_position, distSq]

theorem futureHit_iff_exists (a b : Ship) (h : ℕ) (thr : ℚ) :
    futureHit a b h thr = true ↔
      ∃ k, k ≤ h ∧ dLt (pairDist2At a b ((k : ℚ) * 15)) thr = true := by
  unfold futureHit
  rw [List.any_eq_true]
  constructor
  · rintro ⟨k, hk, hp⟩
    exact ⟨k, Nat.lt_succ_iff.mp (List.mem_range.mp hk), hp⟩
  · rintro ⟨k, hk, hp⟩
    exact ⟨k, List.mem_range.mpr (Nat.lt_succ_iff.mpr hk), hp⟩

theorem futureHit_skip_zero (a b : Ship) (h : ℕ) (thr : ℚ)
    (hnow : dLt (distSq a.cx_nm a.cy_nm b.cx_nm b.cy_nm) thr = false) :
    futureHit a b h thr =
      (List.range' 1 h).any fun step =>
        dLt (pairDist2At a b ((step : ℚ) * 15)) thr := by
  unfold futureHit
  rw [List.range_eq_range', List.range'_succ, List.any_cons]
  have h0 : dLt (pairDist2At a b ((0 : ℕ) * (15 : ℚ))) thr = false := by
    have : ((0 : ℕ) : ℚ) * 15 = 0 := by norm_num
    rw [this, pairDist2At_zero]
    exact hnow
  simp only [Nat.cast_zero] at h0 ⊢
  rw [h0, Bool.false_or]

/-- C2 amended: the pairwise ColregsAlgorithm future sweep samples the
offsets k * 15 seconds for k in 0..=horizon_steps against the collision
distance 2 * safety_zone_nm (the immediate check's threshold), so whenever
the immediate check has already failed its k = 0 sample cannot fire and the
sweep equals one over k in 1..=horizon_steps; the tree-search variant
_detect_future_collision samples k * physics_step for k in
1..=horizon_steps but against the SINGLE safety-zone radius, half the
threshold its immediate check uses. -/
theorem future_sweep_amended :
    (∀ (a b : Ship) (h : ℕ) (thr : ℚ),
      futureHit a b h thr = true ↔
        ∃ k, k ≤ h ∧ dLt (pairDist2At a b ((k : ℚ) * 15)) thr = true) ∧
    (∀ (a b : Ship) (h : ℕ) (sz : ℚ),
      dLt (distSq a.cx_nm a.cy_nm b.cx_nm b.cy_nm) (2 * sz) = false →
      futureHit a b h (2 * sz) =
        (List.range' 1 h).any fun step =>
          dLt (pairDist2At a b ((step : ℚ) * 15)) (2 * sz)) ∧
    (∀ (i j : Ship) (sz : ℚ) (h : ℕ) (ps : ℚ),
      tree_detect_future i j sz h ps = true ↔
        ∃ k, 1 ≤ k ∧ k ≤ h ∧ dLt (pairDist2At i j ((k : ℚ) * ps)) sz = true) := by
  refine ⟨futureHit_iff_exists, ?_, ?_⟩
  · intro a b h sz hnow
    exact futureHit_skip_zero a b h (2 * sz) hnow
  · intro i j sz h ps
    unfold tree_detect_future
    rw [List.any_eq_true]
    constructor
    · rintro ⟨k, hk, hp⟩
      have hm := List.mem_range'_1.mp hk
      exact ⟨k, hm.1, by omega, hp⟩
    · rintro ⟨k, h1, h2, hp⟩
      exact ⟨k, List.mem_range'_1.mpr ⟨h1, by omega⟩, hp⟩

/-- Witness for C2 amended at concrete inputs: two ships bound for each
other 0.5 NM apart at 30 knots; the 0-started and 1-started colregs sweeps
agree, the sweep reports a hit with an offending sample k = 2 ≤ 2, and the
tree-search sweep reports a hit with an offending sample at its own single
radius. -/
theorem future_sweep_amended_witness :
    (∃ k : ℕ, k ≤ 2 ∧
      dLt (pairDist2At
        ⟨0, 0, 1, 0, 30, 30, 10, 0, Status.Green, none, Role.unknown, false, false⟩
        ⟨1/2, 0, -1, 0, 30, 30, -10, 0, Status.Green, none, Role.unknown, false, false⟩
        ((k : ℚ) * 15)) (2 * (1/10)) = true) ∧
    futureHit
      ⟨0, 0, 1, 0, 30, 30, 10, 0, Status.Green, none, Role.unknown, false, false⟩
      ⟨1/2, 0, -1, 0, 30, 30, -10, 0, Status.Green, none, Role.unknown, false, false⟩
      2 (2 * (1/10)) =
      ((List.range' 1 2).any fun step =>
        dLt (pairDist2At
          ⟨0, 0, 1, 0, 30, 30, 10, 0, Status.Green, none, Role.unknown, false, false⟩
          ⟨1/2, 0, -1, 0, 30, 30, -10, 0, Status.Green, none, Role.unknown, false, false⟩
          ((step : ℚ) * 15)) (2 * (1/10))) ∧
    (∃ k : ℕ, 1 ≤ k ∧ k ≤ 2 ∧
      dLt (pairDist2At
        ⟨0, 0, 1, 0, 30, 30, 10, 0, Status.Green, none, Role.unknown, false, false⟩
        ⟨1/2, 0, -1, 0, 30, 30, -10, 0, Status.Green, none, Role.unknown, false, false⟩
        ((k : ℚ) * 15)) (1/10) = true) := by
  refine ⟨?_, ?_, ?_⟩
  · exact (future_sweep_amended.1
      ⟨0, 0, 1, 0, 30, 30, 10, 0, Status.Green, none, Role.unknown, false, false⟩
      ⟨1/2, 0, -1, 0, 30, 30, -10, 0, Status.Green, none, Role.unknown, false, false⟩
      2 (2 * (1/10))).mp
      (by norm_num [futureHit, pairDist2At, Ship.future_position, distSq, dLt,
        List.range, List.range', List.any])
  · exact future_sweep_amended.2.1
      ⟨0, 0, 1, 0, 30, 30, 10, 0, Status.Green, none, Role.unknown, false, false⟩
      ⟨1/2, 0, -1, 0, 30, 30, -10, 0, Status.Green, none, Role.unknown, false, false⟩
      2 (1/10)
      (by norm_num [dLt, distSq])
  · exact (future_sweep_amended.2.2
      ⟨0, 0, 1, 0, 30, 30, 10, 0, Status.Green, none, Role.unknown, false, false⟩
      ⟨1/2, 0, -1, 0, 30, 30, -10, 0, Status.Green, none, Role.unknown, false, false⟩
      (1/10) 2 15).mp
      (by norm_num [tree_detect_future, pairDist2At, Ship.future_position, distSq, dLt,
        List.range', List.any])

/-- C2 counterexample: ships on opposite parallel courses offset 0.15 NM
laterally, safety-zone radius 0.1 NM.  At the sampled offset k = 4 (60 s)
the predicted distance is exactly 0.15 NM — below the collision distance
0.2 = 2 x 0.1 that the claim prescribes for the future check (and that the
immediate check does use) — yet tree_search's _detect_future_collision,
whose threshold is the single radius 0.1, reports no future collision,
while the spec-modelled check with the doubled threshold reports one. -/
theorem tree_future_threshold_counterexample :
    tree_detect_future
      ⟨0, 0, 1, 0, 30, 30, 10, 0, Status.Green, none, Role.unknown, false, false⟩
      ⟨1, 3/20, -1, 0, 30, 30, -10, 3/20, Status.Green, none, Role.unknown, false, false⟩
      (1/10) 10 15 = false ∧
    check_future_claimed
      ⟨0, 0, 1, 0, 30, 30, 10, 0, Status.Green, none, Role.unknown, false, false⟩
      ⟨1, 3/20, -1, 0, 30, 30, -10, 3/20, Status.Green, none, Role.unknown, false, false⟩
      (1/10) 10 15 = true ∧
    tree_is_immediate
      ⟨0, 0, 1, 0, 30, 30, 10, 0, Status.Green, none, Role.unknown, false, false⟩
      ⟨1, 3/20, -1, 0, 30, 30, -10, 3/20, Status.Green, none, Role.unknown, false, false⟩
      (1/10) = false := by
  refine ⟨?_, ?_, ?_⟩ <;>
    norm_num [tree_detect_future, check_future_claimed, tree_is_immediate,
      pairDist2At, Ship.future_position, distSq, dLt, List.range', List.any]

theorem smax_green_left (a : Status) : smax Status.Green a = a := by
  cases a <;> rfl

theorem smax_green_right (a : Status) : smax a Status.Green = a := by
  cases a <;> rfl

theorem smax_assoc (a b c : Status) : smax (smax a b) c = smax a (smax b c) := by
  cases a <;> cases b <;> cases c <;> rfl

theorem smax_eq_red_iff (a b : Status) :
    smax a b = Status.Red ↔ a = Status.Red ∨ b = Status.Red := by
  cases a <;> cases b <;> decide

theorem smax_eq_orange_iff (a b : Status) :
    smax a b = Status.Orange ↔
      (a = Status.Orange ∨ b = Status.Orange) ∧ a ≠ Status.Red ∧ b ≠ Status.Red := by
  cases a <;> cases b <;> decide

theorem smax_eq_green_iff (a b : Status) :
    smax a b = Status.Green ↔ a = Status.Green ∧ b = Status.Green := by
  cases a <;> cases b <;> decide

theorem foldl_smax (l : List Status) (a : Status) :
    l.foldl smax a = smax a (supStatus l) := by
  induction l generalizing a with
  | nil => simp [supStatus, smax_green_right]
  | cons x l ih =>
    have hsup : supStatus (x :: l) = smax x (supStatus l) := by
      show (x :: l).foldl smax Status.Green = _
      rw [List.foldl_cons, smax_green_left, ih]
    rw [List.foldl_cons, ih, hsup, smax_assoc]

theorem supStatus_cons (x : Status) (l : List Status) :
    supStatus (x :: l) = smax x (supStatus l) := by
  show (x :: l).foldl smax Status.Green = _
  rw [List.foldl_cons, smax_green_left, foldl_smax]

theorem supStatus_eq_red (l : List Status) :
    supStatus l = Status.Red ↔ Status.Red ∈ l := by
  induction l with
  | nil => simp [supStatus]
  | cons x l ih =>
    rw [supStatus_cons, smax_eq_red_iff, ih, List.mem_cons]
    simp [eq_comm]

theorem supStatus_eq_orange (l : List Status) :
    supStatus l = Status.Orange ↔ Status.Red ∉ l ∧ Status.Orange ∈ l := by
  induction l with
  | nil => simp [supStatus]
  | cons x l ih =>
    rw [supStatus_cons, smax_eq_orange_iff, ih, List.mem_cons, List.mem_cons,
      not_or]
    simp only [ne_eq, supStatus_eq_red]
    constructor
    · rintro ⟨h1, h2, h3⟩
      rcases h1 with hx | ⟨hrl, hol⟩
      · exact ⟨⟨fun he => h2 he.symm, h3⟩, Or.inl hx.symm⟩
      · exact ⟨⟨fun he => h2 he.symm, hrl⟩, Or.inr hol⟩
    · rintro ⟨⟨hxr, hrl⟩, ho⟩
      rcases ho with hx | hol
      · exact ⟨Or.inl hx.symm, fun he => hxr he.symm, hrl⟩
      · exact ⟨Or.inr ⟨hrl, hol⟩, fun he => hxr he.symm, hrl⟩

theorem supStatus_eq_green (l : List Status) :
    supStatus l = Status.Green ↔ Status.Red ∉ l ∧ Status.Orange ∉ l := by
  induction l with
  | nil => simp [supStatus]
  | cons x l ih =>
    rw [supStatus_cons, smax_eq_green_iff, ih, List.mem_cons, List.mem_cons,
      not_or, not_or]
    cases x <;> simp [eq_comm]

theorem length_modifyShip (f : Ship → Ship) (k : ℕ) (l : List Ship) :
    (modifyShip f k l).length = l.length := by
  induction l generalizing k with
  | nil => cases k <;> rfl
  | cons s t ih =>
    cases k with
    | zero => rfl
    | succ n => simp [modifyShip, ih]

theorem getD_modifyShip_ne (f : Ship → Ship) (k i : ℕ) (l : List Ship)
    (hki : k ≠ i) :
    (modifyShip f k l).getD i default = l.getD i default := by
  induction l generalizing k i with
  | nil => cases k <;> rfl
  | cons s t ih =>
    cases k with
    | zero =>
      cases i with
      | zero => exact absurd rfl hki
      | succ j => simp [modifyShip, List.getD_cons_succ]
    | succ n =>
      cases i with
      | zero => simp [modifyShip, List.getD_cons_zero]
      | succ j =>
        simp only [modifyShip, List.getD_cons_succ]
        exact ih n j (by omega)

theorem getD_modifyShip_eq (f : Ship → Ship) (i : ℕ) (l : List Ship)
    (hi : i < l.length) :
    (modifyShip f i l).getD i default = f (l.getD i default) := by
  induction l generalizing i with
  | nil => simp at hi
  | cons s t ih =>
    cases i with
    | zero => simp [modifyShip, List.getD_cons_zero]
    | succ j =>
      simp only [modifyShip, List.getD_cons_succ]
      exact ih j (by simpa using hi)

theorem getD_default_of_le (l : List Ship) (i : ℕ) (hi : l.length ≤ i) :
    l.getD i default = default := by
  induction l generalizing i with
  | nil => cases i <;> rfl
  | cons s t ih =>
    cases i with
    | zero => simp at hi
    | succ j =>
      simp only [List.getD_cons_succ]
      exact ih j (by simpa using hi)

theorem kin_getD_modifyShip (f : Ship → Ship) (hf : ∀ s, kin (f s) = kin s)
    (k j : ℕ) (l : List Ship) :
    kin ((modifyShip f k l).getD j default) = kin (l.getD j default) := by
  by_cases hkj : k = j
  · subst hkj
    by_cases hk : k < l.length
    · rw [getD_modifyShip_eq f k l hk, hf]
    · rw [getD_default_of_le _ k (by rw [length_modifyShip]; omega),
        getD_default_of_le _ k (by omega)]
  · rw [getD_modifyShip_ne f k j l hkj]

theorem kin_congr_components {s s' : Ship} (h : kin s = kin s') :
    s.cx_nm = s'.cx_nm ∧ s.cy_nm = s'.cy_nm ∧ s.dirx = s'.dirx ∧
      s.diry = s'.diry ∧ s.currentSpeed = s'.currentSpeed := by
  simpa [kin, Prod.ext_iff] using h

theorem tree_is_immediate_congr {s s' t t' : Ship} (hs : kin s = kin s')
    (ht : kin t = kin t') (sz : ℚ) :
    tree_is_immediate s t sz = tree_is_immediate s' t' sz := by
  obtain ⟨h1, h2, -, -, -⟩ := kin_congr_components hs
  obtain ⟨g1, g2, -, -, -⟩ := kin_congr_components ht
  simp [tree_is_immediate, distSq, h1, h2, g1, g2]

theorem tree_detect_future_congr {s s' t t' : Ship} (hs : kin s = kin s')
    (ht : kin t = kin t') (sz : ℚ) (h : ℕ) (ps : ℚ) :
    tree_detect_future s t sz h ps = tree_detect_future s' t' sz h ps := by
  obtain ⟨h1, h2, h3, h4, h5⟩ := kin_congr_components hs
  obtain ⟨g1, g2, g3, g4, g5⟩ := kin_congr_components ht
  simp [tree_detect_future, pairDist2At, Ship.future_position, distSq,
    h1, h2, h3, h4, h5, g1, g2, g3, g4, g5]

theorem pairSeverity_congr {s s' t t' : Ship} (hs : kin s = kin s')
    (ht : kin t = kin t') (sz : ℚ) (h : ℕ) (ps : ℚ) :
    pairSeverity sz h ps s t = pairSeverity sz h ps s' t' := by
  unfold pairSeverity
  rw [tree_is_immediate_congr hs ht, tree_detect_future_congr hs ht]

theorem distSq_symm (x1 y1 x2 y2 : ℚ) : distSq x1 y1 x2 y2 = distSq x2 y2 x1 y1 := by
  unfold distSq
  ring

theorem tree_is_immediate_symm (s t : Ship) (sz : ℚ) :
    tree_is_immediate s t sz = tree_is_immediate t s sz := by
  unfold tree_is_immediate
  rw [distSq_symm]

theorem pairDist2At_symm (a b : Ship) (t : ℚ) :
    pairDist2At a b t = pairDist2At b a t := by
  unfold pairDist2At
  rw [distSq_symm]

theorem tree_detect_future_symm (s t : Ship) (sz : ℚ) (h : ℕ) (ps : ℚ) :
    tree_detect_future s t sz h ps = tree_detect_future t s sz h ps := by
  unfold tree_detect_future
  congr 1
  funext step
  simp only [pairDist2At_symm]

theorem pairSeverity_symm (sz : ℚ) (h : ℕ) (ps : ℚ) (s t : Ship) :
    pairSeverity sz h ps s t = pairSeverity sz h ps t s := by
  unfold pairSeverity
  rw [tree_is_immediate_symm, tree_detect_future_symm]

theorem pairSeverity_eq_red (sz : ℚ) (h : ℕ) (ps : ℚ) (s t : Ship) :
    pairSeverity sz h ps s t = Status.Red ↔ tree_is_immediate s t sz = true := by
  unfold pairSeverity
  split_ifs <;> simp_all

theorem pairSeverity_eq_orange (sz : ℚ) (h : ℕ) (ps : ℚ) (s t : Ship) :
    pairSeverity sz h ps s t = Status.Orange ↔
      tree_is_immediate s t sz = false ∧ tree_detect_future s t sz h ps = true := by
  unfold pairSeverity
  split_ifs <;> simp_all

theorem orangeUpdate_status (s : Ship) :
    ((if s.status ≠ Status.Red then s.set_status Status.Orange else s) : Ship).status =
      smax s.status Status.Orange := by
  cases hs : s.status <;> simp [Ship.set_status, hs, smax]

theorem orangeUpdate_kin (s : Ship) :
    kin ((if s.status ≠ Status.Red then s.set_status Status.Orange else s) : Ship) = kin s := by
  split <;> rfl

theorem smax_red_right (a : Status) : smax a Status.Red = Status.Red := by
  cases a <;> rfl

theorem bool_eq_false_of_ne_true {b : Bool} (h : ¬ b = true) : b = false := by
  cases b
  · rfl
  · exact absurd rfl h

theorem treeDetectStep_spec (szn : ℚ) (hs : ℕ) (ps : ℚ)
    (acc : List Ship × List (ℕ × ℕ)) (pr : ℕ × ℕ)
    (h1 : pr.1 < acc.1.length) (h2 : pr.2 < acc.1.length) (hne : pr.1 ≠ pr.2) :
    (treeDetectStep szn hs ps acc pr).1.length = acc.1.length ∧
    (∀ j, kin ((treeDetectStep szn hs ps acc pr).1.getD j default) =
        kin (acc.1.getD j default)) ∧
    (∀ i, i < acc.1.length →
      ((treeDetectStep szn hs ps acc pr).1.getD i default).status =
        (if pr.1 = i ∨ pr.2 = i then
          smax ((acc.1.getD i default).status)
            (pairSeverity szn hs ps (acc.1.getD pr.1 default) (acc.1.getD pr.2 default))
        else (acc.1.getD i default).status)) := by
  by_cases him : tree_is_immediate (acc.1.getD pr.1 default) (acc.1.getD pr.2 default) szn = true
  · have hships : (treeDetectStep szn hs ps acc pr).1 =
        modifyShip (fun s => s.set_status Status.Red) pr.2
          (modifyShip (fun s => s.set_status Status.Red) pr.1 acc.1) := by
      simp only [treeDetectStep]
      rw [if_pos him]
    rw [hships]
    have hsev : pairSeverity szn hs ps (acc.1.getD pr.1 default) (acc.1.getD pr.2 default) =
        Status.Red := (pairSeverity_eq_red _ _ _ _ _).mpr him
    refine ⟨by simp [length_modifyShip], ?_, ?_⟩
    · intro j
      rw [kin_getD_modifyShip (fun s => s.set_status Status.Red) (fun s => rfl),
        kin_getD_modifyShip (fun s => s.set_status Status.Red) (fun s => rfl)]
    · intro i hi
      rw [hsev]
      by_cases hi2 : pr.2 = i
      · subst hi2
        rw [getD_modifyShip_eq _ _ _ (by rw [length_modifyShip]; exact hi),
          getD_modifyShip_ne _ _ _ _ hne, if_pos (Or.inr rfl)]
        simp [Ship.set_status, smax_red_right]
      · by_cases hi1 : pr.1 = i
        · subst hi1
          rw [getD_modifyShip_ne _ _ _ _ hi2, getD_modifyShip_eq _ _ _ hi,
            if_pos (Or.inl rfl)]
          simp [Ship.set_status, smax_red_right]
        · rw [getD_modifyShip_ne _ _ _ _ hi2, getD_modifyShip_ne _ _ _ _ hi1,
            if_neg (by tauto)]
  · have him' : tree_is_immediate (acc.1.getD pr.1 default) (acc.1.getD pr.2 default) szn = false :=
      bool_eq_false_of_ne_true him
    by_cases hfut : tree_detect_future (acc.1.getD pr.1 default) (acc.1.getD pr.2 default) szn hs ps = true
    · have hships : (treeDetectStep szn hs ps acc pr).1 =
          modifyShip (fun s => if s.status ≠ Status.Red then s.set_status Status.Orange else s) pr.2
            (modifyShip (fun s => if s.status ≠ Status.Red then s.set_status Status.Orange else s) pr.1 acc.1) := by
        simp only [treeDetectStep]
        rw [if_neg him, if_pos hfut]
      rw [hships]
      have hsev : pairSeverity szn hs ps (acc.1.getD pr.1 default) (acc.1.getD pr.2 default) =
          Status.Orange := (pairSeverity_eq_orange _ _ _ _ _).mpr ⟨him', hfut⟩
      refine ⟨by simp [length_modifyShip], ?_, ?_⟩
      · intro j
        rw [kin_getD_modifyShip
            (fun s => if s.status ≠ Status.Red then s.set_status Status.Orange else s) orangeUpdate_kin,
          kin_getD_modifyShip
            (fun s => if s.status ≠ Status.Red then s.set_status Status.Orange else s) orangeUpdate_kin]
      · intro i hi
        rw [hsev]
        by_cases hi2 : pr.2 = i
        · subst hi2
          rw [getD_modifyShip_eq _ _ _ (by rw [length_modifyShip]; exact hi),
            getD_modifyShip_ne _ _ _ _ hne, if_pos (Or.inr rfl)]
          exact orangeUpdate_status _
        · by_cases hi1 : pr.1 = i
          · subst hi1
            rw [getD_modifyShip_ne _ _ _ _ hi2, getD_modifyShip_eq _ _ _ hi,
              if_pos (Or.inl rfl)]
            exact orangeUpdate_status _
          · rw [getD_modifyShip_ne _ _ _ _ hi2, getD_modifyShip_ne _ _ _ _ hi1,
              if_neg (by tauto)]
    · have hships : treeDetectStep szn hs ps acc pr = acc := by
        simp only [treeDetectStep]
        rw [if_neg him, if_neg hfut]
      rw [hships]
      have hsev : pairSeverity szn hs ps (acc.1.getD pr.1 default) (acc.1.getD pr.2 default) =
          Status.Green := by
        unfold pairSeverity
        rw [if_neg him, if_neg hfut]
      refine ⟨rfl, fun j => rfl, ?_⟩
      intro i hi
      rw [hsev]
      split <;> simp [smax_green_right]

theorem treeFold_spec (szn : ℚ) (hs : ℕ) (ps : ℚ) (ships0 : List Ship)
    (P : List (ℕ × ℕ))
    (hP : ∀ pr ∈ P, pr.1 < ships0.length ∧ pr.2 < ships0.length ∧ pr.1 ≠ pr.2) :
    ∀ (acc : List Ship × List (ℕ × ℕ)),
      acc.1.length = ships0.length →
      (∀ j, kin (acc.1.getD j default) = kin (ships0.getD j default)) →
      (P.foldl (treeDetectStep szn hs ps) acc).1.length = ships0.length ∧
      (∀ j, kin ((P.foldl (treeDetectStep szn hs ps) acc).1.getD j default) =
          kin (ships0.getD j default)) ∧
      (∀ i, i < ships0.length →
        ((P.foldl (treeDetectStep szn hs ps) acc).1.getD i default).status =
          P.foldl (fun st pr =>
              if pr.1 = i ∨ pr.2 = i then
                smax st (pairSeverity szn hs ps (ships0.getD pr.1 default)
                  (ships0.getD pr.2 default))
              else st)
            ((acc.1.getD i default).status)) := by
  induction P with
  | nil =>
    intro acc hlen hkin
    exact ⟨hlen, hkin, fun i hi => rfl⟩
  | cons pr P ih =>
    intro acc hlen hkin
    have hpr := hP pr (List.mem_cons_self pr P)
    have hstep := treeDetectStep_spec szn hs ps acc pr
      (by omega) (by omega) hpr.2.2
    have hlen' : (treeDetectStep szn hs ps acc pr).1.length = ships0.length :=
      hstep.1.trans hlen
    have hkin' : ∀ j, kin ((treeDetectStep szn hs ps acc pr).1.getD j default) =
        kin (ships0.getD j default) := fun j => (hstep.2.1 j).trans (hkin j)
    have hmain := ih (fun q hq => hP q (List.mem_cons_of_mem pr hq))
      (treeDetectStep szn hs ps acc pr) hlen' hkin'
    refine ⟨?_, ?_, ?_⟩
    · rw [List.foldl_cons]
      exact hmain.1
    · intro j
      rw [List.foldl_cons]
      exact hmain.2.1 j
    · intro i hi
      rw [List.foldl_cons, List.foldl_cons, hmain.2.2 i hi, hstep.2.2 i (by omega)]
      have hsevc : pairSeverity szn hs ps (acc.1.getD pr.1 default) (acc.1.getD pr.2 default) =
          pairSeverity szn hs ps (ships0.getD pr.1 default) (ships0.getD pr.2 default) :=
        pairSeverity_congr (hkin pr.1) (hkin pr.2) szn hs ps
      rw [hsevc]

theorem mem_pairIndices {n a b : ℕ} : (a, b) ∈ pairIndices n ↔ a < b ∧ b < n := by
  unfold pairIndices
  simp only [List.mem_flatMap, List.mem_map, List.mem_range, List.mem_range'_1]
  constructor
  · rintro ⟨i, hi, j, ⟨hj1, hj2⟩, hE⟩
    obtain ⟨rfl, rfl⟩ := Prod.mk.injEq i j a b ▸ hE
    omega
  · rintro ⟨hab, hbn⟩
    exact ⟨a, by omega, b, ⟨by omega, by omega⟩, rfl⟩

theorem treeFinalGreen_status (l : List Ship) (i : ℕ) :
    ((treeFinalGreen l).getD i default).status = (l.getD i default).status := by
  induction l generalizing i with
  | nil => rfl
  | cons s t ih =>
    cases i with
    | zero =>
      show ((if s.status ≠ Status.Orange ∧ s.status ≠ Status.Red then
          s.set_status Status.Green else s) : Ship).status = s.status
      cases hs : s.status <;> simp [Ship.set_status, hs]
    | succ j =>
      simpa [treeFinalGreen, List.getD_cons_succ] using ih j

theorem getD_mem_of_lt (l : List Ship) (i : ℕ) (hi : i < l.length) :
    l.getD i default ∈ l := by
  induction l generalizing i with
  | nil => simp at hi
  | cons s t ih =>
    cases i with
    | zero => exact List.mem_cons_self s t
    | succ j =>
      simp only [List.getD_cons_succ]
      exact List.mem_cons_of_mem s (ih j (by simpa using hi))

theorem foldl_touch (i : ℕ) (sev : ℕ × ℕ → Status) (P : List (ℕ × ℕ)) (st : Status) :
    P.foldl (fun st pr => if pr.1 = i ∨ pr.2 = i then smax st (sev pr) else st) st =
      smax st (supStatus ((P.filter fun pr => decide (pr.1 = i ∨ pr.2 = i)).map sev)) := by
  induction P generalizing st with
  | nil => simp [supStatus, smax_green_right]
  | cons pr P ihp =>
    by_cases h : pr.1 = i ∨ pr.2 = i
    · rw [List.foldl_cons, if_pos h, ihp, List.filter_cons_of_pos (by simpa using h),
        List.map_cons, supStatus_cons, smax_assoc]
    · rw [List.foldl_cons, if_neg h, ihp, List.filter_cons_of_neg (by simpa using h)]

theorem detect_collisions_char (ships : List Ship) (szm : ℚ) (hs : ℕ) (ps : ℚ)
    (i : ℕ) (hi : i < ships.length)
    (hG : ∀ s ∈ ships, s.status = Status.Green) :
    (((detect_collisions szm hs ps ships).1.getD i default).status = Status.Red ↔
      ∃ j, j < ships.length ∧ j ≠ i ∧
        tree_is_immediate (ships.getD i default) (ships.getD j default) (szm / 1852) = true) ∧
    (((detect_collisions szm hs ps ships).1.getD i default).status = Status.Orange ↔
      (¬ ∃ j, j < ships.length ∧ j ≠ i ∧
        tree_is_immediate (ships.getD i default) (ships.getD j default) (szm / 1852) = true) ∧
      (∃ j, j < ships.length ∧ j ≠ i ∧
        tree_detect_future (ships.getD i default) (ships.getD j default) (szm / 1852) hs ps = true)) ∧
    (((detect_collisions szm hs ps ships).1.getD i default).status = Status.Green ↔
      (¬ ∃ j, j < ships.length ∧ j ≠ i ∧
        tree_is_immediate (ships.getD i default) (ships.getD j default) (szm / 1852) = true) ∧
      (¬ ∃ j, j < ships.length ∧ j ≠ i ∧
        tree_detect_future (ships.getD i default) (ships.getD j default) (szm / 1852) hs ps = true)) := by
  have hP : ∀ pr ∈ pairIndices ships.length,
      pr.1 < ships.length ∧ pr.2 < ships.length ∧ pr.1 ≠ pr.2 := by
    intro pr hpr
    obtain ⟨a, b⟩ := pr
    have hab := mem_pairIndices.mp hpr
    exact ⟨by omega, by omega, by omega⟩
  have hfold := treeFold_spec (szm / 1852) hs ps ships (pairIndices ships.length) hP
    (ships, []) rfl (fun j => rfl)
  have hstat := hfold.2.2 i hi
  have hdc : ((detect_collisions szm hs ps ships).1.getD i default).status =
      (((pairIndices ships.length).foldl (treeDetectStep (szm / 1852) hs ps)
        (ships, [])).1.getD i default).status := by
    simp only [detect_collisions]
    exact treeFinalGreen_status _ i
  have hinit : (ships.getD i default).status = Status.Green :=
    hG _ (getD_mem_of_lt ships i hi)
  have htouch := foldl_touch i
    (fun pr => pairSeverity (szm / 1852) hs ps (ships.getD pr.1 default) (ships.getD pr.2 default))
    (pairIndices ships.length) Status.Green
  have hsts : ((detect_collisions szm hs ps ships).1.getD i default).status =
      supStatus (((pairIndices ships.length).filter
        fun pr => decide (pr.1 = i ∨ pr.2 = i)).map
        (fun pr => pairSeverity (szm / 1852) hs ps
          (ships.getD pr.1 default) (ships.getD pr.2 default))) := by
    rw [hdc, hstat, hinit, htouch, smax_green_left]
  have hmem_red : Status.Red ∈ (((pairIndices ships.length).filter
      fun pr => decide (pr.1 = i ∨ pr.2 = i)).map
      (fun pr => pairSeverity (szm / 1852) hs ps
        (ships.getD pr.1 default) (ships.getD pr.2 default))) ↔
      ∃ j, j < ships.length ∧ j ≠ i ∧
        tree_is_immediate (ships.getD i default) (ships.getD j default) (szm / 1852) = true := by
    rw [List.mem_map]
    constructor
    · rintro ⟨⟨a, b⟩, hpr, hsev⟩
      rw [List.mem_filter] at hpr
      have hab := mem_pairIndices.mp hpr.1
      have htch : a = i ∨ b = i := by simpa using hpr.2
      have himm := (pairSeverity_eq_red _ _ _ _ _).mp hsev
      rcases htch with rfl | rfl
      · exact ⟨b, hab.2, by omega, himm⟩
      · refine ⟨a, by omega, by omega, ?_⟩
        rw [tree_is_immediate_symm]
        exact himm
    · rintro ⟨j, hj, hji, himm⟩
      rcases Nat.lt_or_ge i j with hij | hij
      · refine ⟨(i, j), ?_, (pairSeverity_eq_red _ _ _ _ _).mpr himm⟩
        rw [List.mem_filter]
        exact ⟨mem_pairIndices.mpr ⟨hij, hj⟩, by simp⟩
      · refine ⟨(j, i), ?_, ?_⟩
        · rw [List.mem_filter]
          refine ⟨mem_pairIndices.mpr ⟨by omega, hi⟩, by simp⟩
        · apply (pairSeverity_eq_red _ _ _ _ _).mpr
          rw [tree_is_immediate_symm]
          exact himm
  have hmem_orange : Status.Orange ∈ (((pairIndices ships.length).filter
      fun pr => decide (pr.1 = i ∨ pr.2 = i)).map
      (fun pr => pairSeverity (szm / 1852) hs ps
        (ships.getD pr.1 default) (ships.getD pr.2 default))) ↔
      ∃ j, j < ships.length ∧ j ≠ i ∧
        tree_is_immediate (ships.getD i default) (ships.getD j default) (szm / 1852) = false ∧
        tree_detect_future (ships.getD i default) (ships.getD j default) (szm / 1852) hs ps = true := by
    rw [List.mem_map]
    constructor
    · rintro ⟨⟨a, b⟩, hpr, hsev⟩
      rw [List.mem_filter] at hpr
      have hab := mem_pairIndices.mp hpr.1
      have htch : a = i ∨ b = i := by simpa using hpr.2
      have hor := (pairSeverity_eq_orange _ _ _ _ _).mp hsev
      rcases htch with rfl | rfl
      · exact ⟨b, hab.2, by omega, hor.1, hor.2⟩
      · refine ⟨a, by omega, by omega, ?_, ?_⟩
        · rw [tree_is_immediate_symm]
          exact hor.1
        · rw [tree_detect_future_symm]
          exact hor.2
    · rintro ⟨j, hj, hji, himm, hfut⟩
      rcases Nat.lt_or_ge i j with hij | hij
      · refine ⟨(i, j), ?_, (pairSeverity_eq_orange _ _ _ _ _).mpr ⟨himm, hfut⟩⟩
        rw [List.mem_filter]
        exact ⟨mem_pairIndices.mpr ⟨hij, hj⟩, by simp⟩
      · refine ⟨(j, i), ?_, ?_⟩
        · rw [List.mem_filter]
          exact ⟨mem_pairIndices.mpr ⟨by omega, hi⟩, by simp⟩
        · apply (pairSeverity_eq_orange _ _ _ _ _).mpr
          rw [tree_is_immediate_symm, tree_detect_future_symm]
          exact ⟨himm, hfut⟩
  refine ⟨?_, ?_, ?_⟩
  · rw [hsts, supStatus_eq_red, hmem_red]
  · rw [hsts, supStatus_eq_orange, hmem_red, hmem_orange]
    constructor
    · rintro ⟨hnr, j, hj, hji, himm, hfut⟩
      exact ⟨hnr, j, hj, hji, hfut⟩
    · rintro ⟨hnr, j, hj, hji, hfut⟩
      refine ⟨hnr, j, hj, hji, ?_, hfut⟩
      exact bool_eq_false_of_ne_true fun he => hnr ⟨j, hj, hji, he⟩
  · rw [hsts, supStatus_eq_green, hmem_red, hmem_orange]
    constructor
    · rintro ⟨hnr, hno⟩
      refine ⟨hnr, ?_⟩
      rintro ⟨j, hj, hji, hfut⟩
      exact hno ⟨j, hj, hji,
        bool_eq_false_of_ne_true fun he => hnr ⟨j, hj, hji, he⟩, hfut⟩
    · rintro ⟨hnr, hnf⟩
      refine ⟨hnr, ?_⟩
      rintro ⟨j, hj, hji, himm, hfut⟩
      exact hnf ⟨j, hj, hji, hfut⟩

/-- C1 amended: the claimed trichotomy holds for the pairwise
ColregsAlgorithm predictor — beyond horizon_nm the pair is Green with no
further evaluation, otherwise Red exactly on an immediate violation of
twice the safety-zone radius, Orange exactly when no immediate violation
but some sampled future offset violates it, Green exactly when neither —
but the tree-search variant applies NO current-distance horizon gate: over
an all-Green fleet, a vessel's final status is the most severe verdict over
all its pairs, where a pair is Red on an immediate violation of twice the
radius and Orange whenever its future sweep (thresholded at the SINGLE
radius) fires, however far apart the pair currently is. -/
theorem collision_predictor_amended :
    (∀ (a b : Ship) (hs : ℕ) (sz hz : ℚ),
      (dGt (distSq a.cx_nm a.cy_nm b.cx_nm b.cy_nm) hz = true →
        detect_future_collision a b hs sz hz = (Status.Green, Status.Green)) ∧
      (dGt (distSq a.cx_nm a.cy_nm b.cx_nm b.cy_nm) hz = false →
        ((detect_future_collision a b hs sz hz = (Status.Red, Status.Red) ↔
          dLt (distSq a.cx_nm a.cy_nm b.cx_nm b.cy_nm) (2 * sz) = true) ∧
         (detect_future_collision a b hs sz hz = (Status.Orange, Status.Orange) ↔
          (dLt (distSq a.cx_nm a.cy_nm b.cx_nm b.cy_nm) (2 * sz) = false ∧
           futureHit a b hs (2 * sz) = true)) ∧
         (detect_future_collision a b hs sz hz = (Status.Green, Status.Green) ↔
          (dLt (distSq a.cx_nm a.cy_nm b.cx_nm b.cy_nm) (2 * sz) = false ∧
           futureHit a b hs (2 * sz) = false))))) ∧
    (∀ (ships : List Ship) (szm : ℚ) (hs : ℕ) (ps : ℚ) (i : ℕ),
      i < ships.length →
      (∀ s ∈ ships, s.status = Status.Green) →
      (((detect_collisions szm hs ps ships).1.getD i default).status = Status.Red ↔
        ∃ j, j < ships.length ∧ j ≠ i ∧
          tree_is_immediate (ships.getD i default) (ships.getD j default) (szm / 1852) = true) ∧
      (((detect_collisions szm hs ps ships).1.getD i default).status = Status.Orange ↔
        (¬ ∃ j, j < ships.length ∧ j ≠ i ∧
          tree_is_immediate (ships.getD i default) (ships.getD j default) (szm / 1852) = true) ∧
        (∃ j, j < ships.length ∧ j ≠ i ∧
          tree_detect_future (ships.getD i default) (ships.getD j default) (szm / 1852) hs ps = true)) ∧
      (((detect_collisions szm hs ps ships).1.getD i default).status = Status.Green ↔
        (¬ ∃ j, j < ships.length ∧ j ≠ i ∧
          tree_is_immediate (ships.getD i default) (ships.getD j default) (szm / 1852) = true) ∧
        (¬ ∃ j, j < ships.length ∧ j ≠ i ∧
          tree_detect_future (ships.getD i default) (ships.getD j default) (szm / 1852) hs ps = true))) := by
  constructor
  · intro a b hs sz hz
    constructor
    · intro hg
      simp only [detect_future_collision]
      rw [if_pos hg]
    · intro hg
      simp only [detect_future_collision]
      rw [if_neg (by rw [hg]; exact Bool.false_ne_true)]
      by_cases hlt : dLt (distSq a.cx_nm a.cy_nm b.cx_nm b.cy_nm) (2 * sz) = true
      · rw [if_pos hlt]
        refine ⟨by simp [hlt], by simp [hlt], by simp [hlt]⟩
      · have hlt' := bool_eq_false_of_ne_true hlt
        rw [if_neg hlt]
        by_cases hfh : futureHit a b hs (2 * sz) = true
        · rw [if_pos hfh]
          refine ⟨by simp [hlt'], by simp [hlt', hfh], by simp [hfh]⟩
        · have hfh' := bool_eq_false_of_ne_true hfh
          rw [if_neg hfh]
          refine ⟨by simp [hlt'], by simp [hfh'], by simp [hlt', hfh']⟩
  · intro ships szm hs ps i hi hG
    exact detect_collisions_char ships szm hs ps i hi hG

/-- C1 counterexample: two ships 2 NM apart closing at 60 knots, horizon
distance 1 NM, safety-zone 185.2 m (0.1 NM), 10 sampled steps of 15 s.
Their current distance exceeds the horizon distance — the claim demands
both be reported Green with no classification — yet tree_search's
detect_collisions, which has no horizon-distance gate, reports both ships
Orange (they meet within the sampled horizon). -/
theorem tree_no_horizon_gate_counterexample :
    ((detect_collisions (926/5) 10 15
      [⟨0, 0, 1, 0, 30, 30, 10, 0, Status.Green, none, Role.unknown, false, false⟩,
       ⟨2, 0, -1, 0, 30, 30, -10, 0, Status.Green, none, Role.unknown, false, false⟩]).1.map
        Ship.status = [Status.Orange, Status.Orange]) ∧
    dGt (distSq 0 0 2 0) 1 = true := by
  constructor
  · norm_num [detect_collisions, pairIndices, treeDetectStep, treeFinalGreen,
      tree_is_immediate, tree_detect_future, modifyShip, pairDist2At,
      Ship.future_position, Ship.set_status, distSq, dLt, List.range,
      List.range', List.any, List.foldl]
    simp
  · norm_num [dGt, distSq]

/-- Witness for C1 amended at concrete inputs: the horizon gate of the
pairwise predictor on a pair 2 NM apart with a 1 NM horizon yields Green,
and the tree-search Red characterization is obtained for a concrete
two-ship all-Green fleet 0.1 NM apart. -/
theorem collision_predictor_amended_witness :
    detect_future_collision
      ⟨0, 0, 1, 0, 30, 30, 10, 0, Status.Green, none, Role.unknown, false, false⟩
      ⟨2, 0, -1, 0, 30, 30, -10, 0, Status.Green, none, Role.unknown, false, false⟩
      10 (1/10) 1 = (Status.Green, Status.Green) ∧
    (((detect_collisions (926/5) 10 15
        [⟨0, 0, 1, 0, 30, 30, 10, 0, Status.Green, none, Role.unknown, false, false⟩,
         ⟨1/10, 0, -1, 0, 30, 30, -10, 0, Status.Green, none, Role.unknown, false, false⟩]).1.getD
        0 default).status = Status.Red ↔
      ∃ j, j < 2 ∧ j ≠ 0 ∧
        tree_is_immediate
          (([⟨0, 0, 1, 0, 30, 30, 10, 0, Status.Green, none, Role.unknown, false, false⟩,
             ⟨1/10, 0, -1, 0, 30, 30, -10, 0, Status.Green, none, Role.unknown, false, false⟩] :
            List Ship).getD 0 default)
          (([⟨0, 0, 1, 0, 30, 30, 10, 0, Status.Green, none, Role.unknown, false, false⟩,
             ⟨1/10, 0, -1, 0, 30, 30, -10, 0, Status.Green, none, Role.unknown, false, false⟩] :
            List Ship).getD j default)
          ((926/5) / 1852) = true) := by
  constructor
  · exact (collision_predictor_amended.1
      ⟨0, 0, 1, 0, 30, 30, 10, 0, Status.Green, none, Role.unknown, false, false⟩
      ⟨2, 0, -1, 0, 30, 30, -10, 0, Status.Green, none, Role.unknown, false, false⟩
      10 (1/10) 1).1 (by norm_num [dGt, distSq])
  · exact (collision_predictor_amended.2
      [⟨0, 0, 1, 0, 30, 30, 10, 0, Status.Green, none, Role.unknown, false, false⟩,
       ⟨1/10, 0, -1, 0, 30, 30, -10, 0, Status.Green, none, Role.unknown, false, false⟩]
      (926/5) 10 15 0 (by norm_num)
      (by
        intro s hs
        simp only [List.mem_cons, List.not_mem_nil, or_false] at hs
        rcases hs with rfl | rfl <;> rfl)).1

theorem detect_future_collision_fst_eq_snd (a b : Ship) (hs : ℕ) (sz hz : ℚ) :
    (detect_future_collision a b hs sz hz).1 = (detect_future_collision a b hs sz hz).2 := by
  simp only [detect_future_collision]
  split_ifs <;> rfl

theorem pairVerdict_fst_eq_snd (a b : Ship) (hs : ℕ) (sz hz : ℚ) :
    (pairVerdict a b hs sz hz).1 = (pairVerdict a b hs sz hz).2 := by
  simp only [pairVerdict]
  split_ifs <;> first
    | rfl
    | exact detect_future_collision_fst_eq_snd a b hs sz hz

theorem colregsStep_statuses_cons (at2 : ℚ → ℚ → ℚ) (a b : Ship) (rest : List Ship)
    (hs : ℕ) (sz hz : ℚ) :
    (colregsStep at2 (a :: b :: rest) hs sz hz).1 =
      [(pairVerdict a b hs sz hz).1, (pairVerdict a b hs sz hz).2] := by
  simp only [colregsStep]
  split_ifs <;> rfl

theorem assign_roles_avoid (at2 : ℚ → ℚ → ℚ) (x y : Ship) (sc : ScenarioKind) :
    (assign_roles at2 x y sc).1.is_avoiding = x.is_avoiding ∧
    (assign_roles at2 x y sc).2.is_avoiding = y.is_avoiding := by
  simp only [assign_roles]
  split_ifs <;> exact ⟨rfl, rfl⟩

theorem handle_red_acts (a b : Ship) :
    (a.is_avoiding = true ∨ b.is_avoiding = true → (handle_red a b).1 = []) ∧
    (∀ ac ∈ (handle_red a b).1, ac.shipId = 0 ∨ ac.shipId = 1) := by
  constructor
  · intro h
    unfold handle_red
    rcases h with h | h <;> simp [h]
  · intro ac hac
    unfold handle_red at hac
    split_ifs at hac
    · simp only [List.mem_cons, List.not_mem_nil, or_false] at hac
      rcases hac with rfl | rfl
      · exact Or.inl rfl
      · exact Or.inr rfl
    · simp at hac

theorem handle_orange_acts (at2 : ℚ → ℚ → ℚ) (a b : Ship) :
    (a.is_avoiding = true ∨ b.is_avoiding = true → (handle_orange at2 a b).1 = []) ∧
    (∀ ac ∈ (handle_orange at2 a b).1, ac.shipId = 0 ∨ ac.shipId = 1) := by
  constructor
  · intro h
    unfold handle_orange
    have hav : (a.is_avoiding || b.is_avoiding) = true := by
      rcases h with h | h <;> simp [h]
    rw [if_pos hav]
  · intro ac hac
    simp only [handle_orange] at hac
    split_ifs at hac <;>
      simp only [List.mem_cons, List.not_mem_nil, or_false] at hac <;>
      first
        | (rcases hac with rfl | rfl
           · exact Or.inl rfl
           · exact Or.inr rfl)
        | (rw [hac]; simp)

/-- C9: in every colregsStep on a state with at least two ships, the two
returned statuses are equal — both Red, both Orange or both Green; an
asymmetric pair verdict is never produced. -/
theorem pair_statuses_equal (at2 : ℚ → ℚ → ℚ) (ships : List Ship) (hs : ℕ)
    (sz hz : ℚ) (h2 : 2 ≤ ships.length) :
    ∃ st, (colregsStep at2 ships hs sz hz).1 = [st, st] := by
  match ships with
  | [] => simp at h2
  | [s] => simp at h2
  | a :: b :: rest =>
    refine ⟨(pairVerdict a b hs sz hz).2, ?_⟩
    rw [colregsStep_statuses_cons, pairVerdict_fst_eq_snd]

/-- Witness for C9 at concrete inputs: a concrete two-ship state produces a
status list of the form two copies of one status. -/
theorem pair_statuses_equal_witness :
    ∃ st, (colregsStep (fun _ _ => 0)
      [⟨0, 0, 1, 0, 10, 10, 5, 0, Status.Green, none, Role.unknown, false, false⟩,
       ⟨1, 0, -1, 0, 10, 10, -5, 0, Status.Green, none, Role.unknown, false, false⟩]
      3 (1/10) 5).1 = [st, st] :=
  pair_statuses_equal (fun _ _ => 0)
    [⟨0, 0, 1, 0, 10, 10, 5, 0, Status.Green, none, Role.unknown, false, false⟩,
     ⟨1, 0, -1, 0, 10, 10, -5, 0, Status.Green, none, Role.unknown, false, false⟩]
    3 (1/10) 5 (by norm_num)

/-- C6 amended: with fewer than 2 ships, colregsStep emits no actions and
performs no mutation, but its status output is the per-ship Green list
(length n), not the empty list: for one ship it returns the singleton
Green. -/
theorem step_fewer_than_two_amended (at2 : ℚ → ℚ → ℚ) (ships : List Ship)
    (hs : ℕ) (sz hz : ℚ) (h : ships.length < 2) :
    colregsStep at2 ships hs sz hz =
      (List.replicate ships.length Status.Green, [], ships) := by
  match ships with
  | [] => rfl
  | [s] => rfl
  | a :: b :: rest =>
    exfalso
    simp only [List.length_cons] at h
    omega

/-- Witness for C6 amended at a concrete one-ship input. -/
theorem step_fewer_than_two_witness :
    colregsStep (fun _ _ => 0)
      [⟨0, 0, 1, 0, 10, 10, 5, 5, Status.Green, none, Role.unknown, false, false⟩]
      3 (1/10) 5 =
      ([Status.Green], [],
       [⟨0, 0, 1, 0, 10, 10, 5, 5, Status.Green, none, Role.unknown, false, false⟩]) := by
  have h := step_fewer_than_two_amended (fun _ _ => 0)
    [⟨0, 0, 1, 0, 10, 10, 5, 5, Status.Green, none, Role.unknown, false, false⟩]
    3 (1/10) 5 (by norm_num)
  simpa using h

/-- C6 counterexample: on a one-ship state the source returns the status
list of length 1 (the Python code builds statuses as a Green entry per ship
before the early return), so the status output is NOT empty as the claim
states; actions are empty and the ship is untouched. -/
theorem single_ship_status_counterexample :
    (colregsStep (fun _ _ => 0)
      [⟨0, 0, 1, 0, 10, 10, 5, 5, Status.Green, none, Role.unknown, false, false⟩]
      10 (1/10) 5).1 = [Status.Green] ∧
    (colregsStep (fun _ _ => 0)
      [⟨0, 0, 1, 0, 10, 10, 5, 5, Status.Green, none, Role.unknown, false, false⟩]
      10 (1/10) 5).1 ≠ ([] : List Status) ∧
    (colregsStep (fun _ _ => 0)
      [⟨0, 0, 1, 0, 10, 10, 5, 5, Status.Green, none, Role.unknown, false, false⟩]
      10 (1/10) 5).2 = ([],
       [⟨0, 0, 1, 0, 10, 10, 5, 5, Status.Green, none, Role.unknown, false, false⟩]) := by
  exact ⟨rfl, (by simp : ([Status.Green] : List Status) ≠ []), rfl⟩

theorem colregsStep_no_new_action (at2 : ℚ → ℚ → ℚ) (a b : Ship) (rest : List Ship)
    (hs : ℕ) (sz hz : ℚ) (hav : a.is_avoiding = true ∨ b.is_avoiding = true)
    (hro4 : (pairVerdict a b hs sz hz).1 = Status.Red ∨
      (pairVerdict a b hs sz hz).2 = Status.Red ∨
      (pairVerdict a b hs sz hz).1 = Status.Orange ∨
      (pairVerdict a b hs sz hz).2 = Status.Orange) :
    (colregsStep at2 (a :: b :: rest) hs sz hz).2.1 = [] := by
  simp only [colregsStep]
  by_cases hR : (pairVerdict a b hs sz hz).1 = Status.Red ∨
      (pairVerdict a b hs sz hz).2 = Status.Red
  · rw [if_pos hR]
    refine (handle_red_acts _ _).1 ?_
    rcases hav with ha | hb
    · left
      rw [(assign_roles_avoid at2 _ _ _).1]
      exact ha
    · right
      rw [(assign_roles_avoid at2 _ _ _).2]
      exact hb
  · have hO : (pairVerdict a b hs sz hz).1 = Status.Orange ∨
        (pairVerdict a b hs sz hz).2 = Status.Orange := by tauto
    rw [if_neg hR, if_pos hO]
    refine (handle_orange_acts at2 _ _).1 ?_
    rcases hav with ha | hb
    · left
      rw [(assign_roles_avoid at2 _ _ _).1]
      exact ha
    · right
      rw [(assign_roles_avoid at2 _ _ _).2]
      exact hb

theorem colregsStep_redorange_acts (at2 : ℚ → ℚ → ℚ) (a b : Ship) (rest : List Ship)
    (hs : ℕ) (sz hz : ℚ)
    (hro4 : (pairVerdict a b hs sz hz).1 = Status.Red ∨
      (pairVerdict a b hs sz hz).2 = Status.Red ∨
      (pairVerdict a b hs sz hz).1 = Status.Orange ∨
      (pairVerdict a b hs sz hz).2 = Status.Orange) :
    ∀ ac ∈ (colregsStep at2 (a :: b :: rest) hs sz hz).2.1,
      ac.shipId = 0 ∨ ac.shipId = 1 := by
  intro ac hac
  simp only [colregsStep] at hac
  by_cases hR : (pairVerdict a b hs sz hz).1 = Status.Red ∨
      (pairVerdict a b hs sz hz).2 = Status.Red
  · rw [if_pos hR] at hac
    exact (handle_red_acts _ _).2 ac hac
  · have hO : (pairVerdict a b hs sz hz).1 = Status.Orange ∨
        (pairVerdict a b hs sz hz).2 = Status.Orange := by tauto
    rw [if_neg hR, if_pos hO] at hac
    exact (handle_orange_acts at2 _ _).2 ac hac

/-- C3: for every ship whose is_avoiding flag is true at the start of a
colregsStep, when the returned statuses contain Red or Orange no emitted
Action targets that ship — the Red handler requires both tracked ships to
be clear of avoidance before acting, and the Orange handler returns
immediately when either is avoiding. -/
theorem no_retrigger_while_avoiding (at2 : ℚ → ℚ → ℚ) (ships : List Ship)
    (hs : ℕ) (sz hz : ℚ) (i : ℕ) (hi : i < ships.length)
    (hav : (ships.getD i default).is_avoiding = true)
    (hro : Status.Red ∈ (colregsStep at2 ships hs sz hz).1 ∨
      Status.Orange ∈ (colregsStep at2 ships hs sz hz).1) :
    ∀ ac ∈ (colregsStep at2 ships hs sz hz).2.1, ac.shipId ≠ i := by
  match ships with
  | [] =>
    intro ac hac
    simp [colregsStep] at hac
  | [s] =>
    intro ac hac
    simp [colregsStep] at hac
  | a :: b :: rest =>
    intro ac hac
    rw [colregsStep_statuses_cons] at hro
    have hro4 : (pairVerdict a b hs sz hz).1 = Status.Red ∨
        (pairVerdict a b hs sz hz).2 = Status.Red ∨
        (pairVerdict a b hs sz hz).1 = Status.Orange ∨
        (pairVerdict a b hs sz hz).2 = Status.Orange := by
      rcases hro with hm | hm <;>
        simp only [List.mem_cons, List.not_mem_nil, or_false] at hm <;>
        rcases hm with hm | hm
      · exact Or.inl hm.symm
      · exact Or.inr (Or.inl hm.symm)
      · exact Or.inr (Or.inr (Or.inl hm.symm))
      · exact Or.inr (Or.inr (Or.inr hm.symm))
    match i, hi with
    | 0, _ =>
      have hnil := colregsStep_no_new_action at2 a b rest hs sz hz
        (Or.inl (by simpa using hav)) hro4
      rw [hnil] at hac
      simp at hac
    | 1, _ =>
      have hnil := colregsStep_no_new_action at2 a b rest hs sz hz
        (Or.inr (by simpa using hav)) hro4
      rw [hnil] at hac
      simp at hac
    | (n + 2), _ =>
      have h01 := colregsStep_redorange_acts at2 a b rest hs sz hz hro4 ac hac
      omega

/-- Witness for C3 at concrete inputs: a pair 0.05 NM apart (Red verdict)
where ship 0 is already avoiding; colregsStep emits no action targeting
ship 0. -/
theorem no_retrigger_while_avoiding_witness :
    ((colregsStep (fun _ _ => 0)
      [⟨0, 0, 1, 0, 10, 10, 5, 0, Status.Green, none, Role.unknown, true, false⟩,
       ⟨1/20, 0, -1, 0, 10, 10, -5, 0, Status.Green, none, Role.unknown, false, false⟩]
      3 (1/10) 5).2.1).all (fun ac => decide (ac.shipId ≠ 0)) = true := by
  have hro : Status.Red ∈ (colregsStep (fun _ _ => 0)
      [⟨0, 0, 1, 0, 10, 10, 5, 0, Status.Green, none, Role.unknown, true, false⟩,
       ⟨1/20, 0, -1, 0, 10, 10, -5, 0, Status.Green, none, Role.unknown, false, false⟩]
      3 (1/10) 5).1 ∨ Status.Orange ∈ (colregsStep (fun _ _ => 0)
      [⟨0, 0, 1, 0, 10, 10, 5, 0, Status.Green, none, Role.unknown, true, false⟩,
       ⟨1/20, 0, -1, 0, 10, 10, -5, 0, Status.Green, none, Role.unknown, false, false⟩]
      3 (1/10) 5).1 := by
    left
    rw [colregsStep_statuses_cons]
    have : (pairVerdict
        ⟨0, 0, 1, 0, 10, 10, 5, 0, Status.Green, none, Role.unknown, true, false⟩
        ⟨1/20, 0, -1, 0, 10, 10, -5, 0, Status.Green, none, Role.unknown, false, false⟩
        3 (1/10) 5).1 = Status.Red := by
      norm_num [pairVerdict, detect_future_collision, dGt, dLt, distSq]
    rw [this]
    simp
  rw [List.all_eq_true]
  intro ac hac
  rw [decide_eq_true_eq]
  exact no_retrigger_while_avoiding (fun _ _ => 0)
    [⟨0, 0, 1, 0, 10, 10, 5, 0, Status.Green, none, Role.unknown, true, false⟩,
     ⟨1/20, 0, -1, 0, 10, 10, -5, 0, Status.Green, none, Role.unknown, false, false⟩]
    3 (1/10) 5 0 (by norm_num) rfl hro ac hac

theorem pymod_nonneg_lt (a b : ℚ) (hb : 0 < b) : 0 ≤ pymod a b ∧ pymod a b < b := by
  unfold pymod
  have hne : b ≠ 0 := ne_of_gt hb
  have hfl : ((Int.floor (a / b) : ℤ) : ℚ) ≤ a / b := Int.floor_le _
  have hfu : a / b < ((Int.floor (a / b) : ℤ) : ℚ) + 1 := Int.lt_floor_add_one _
  have hba : b * (a / b) = a := by field_simp
  constructor
  · nlinarith [mul_le_mul_of_nonneg_left hfl (le_of_lt hb)]
  · nlinarith [mul_lt_mul_of_pos_left hfu hb]

theorem revert_heading_delta_facts (at2 : ℚ → ℚ → ℚ) (s : Ship) :
    -180 ≤ revert_heading_delta at2 s ∧ revert_heading_delta at2 s < 180 ∧
    ∃ m : ℤ, revert_heading_delta at2 s =
      desired_heading_to_dest at2 s - get_heading_from_direction at2 s + 360 * m := by
  unfold revert_heading_delta
  obtain ⟨h1, h2⟩ := pymod_nonneg_lt
    (desired_heading_to_dest at2 s - get_heading_from_direction at2 s + 180) 360 (by norm_num)
  refine ⟨by linarith, by linarith, ?_⟩
  refine ⟨-(Int.floor ((desired_heading_to_dest at2 s - get_heading_from_direction at2 s + 180) / 360)), ?_⟩
  unfold pymod
  push_cast
  ring

theorem revert_ship_mem (at2 : ℚ → ℚ → ℚ) (k : ℕ) (s : Ship) (ac : Action) :
    ac ∈ (revert_ship at2 k s).1 ↔
      ((|revert_heading_delta at2 s| > 1 / 1000 ∨
        |s.maxSpeed - s.currentSpeed| > 1 / 1000) ∧
       ac = ⟨k, revert_heading_delta at2 s, s.maxSpeed - s.currentSpeed⟩) := by
  simp only [revert_ship]
  split_ifs with h
  · simp only [List.mem_singleton]
    constructor
    · intro he
      exact ⟨h, he⟩
    · rintro ⟨-, he⟩
      exact he
  · simp only [List.not_mem_nil, false_iff]
    rintro ⟨hcond, -⟩
    exact h hcond

theorem handle_red_avoid (A B : Ship) :
    (A.is_avoiding = true → (handle_red A B).2.1.is_avoiding = true) ∧
    (B.is_avoiding = true → (handle_red A B).2.2.is_avoiding = true) := by
  unfold handle_red
  split_ifs with h
  · exact ⟨fun _ => rfl, fun _ => rfl⟩
  · exact ⟨fun hx => hx, fun hx => hx⟩

theorem handle_orange_avoid (at2 : ℚ → ℚ → ℚ) (A B : Ship) :
    (A.is_avoiding = true → (handle_orange at2 A B).2.1.is_avoiding = true) ∧
    (B.is_avoiding = true → (handle_orange at2 A B).2.2.is_avoiding = true) := by
  simp only [handle_orange]
  split_ifs <;> constructor <;> intro hx <;> first | rfl | exact hx

theorem colregsStep_avoid_persists (at2 : ℚ → ℚ → ℚ) (a b : Ship) (rest : List Ship)
    (hs : ℕ) (sz hz : ℚ) (i : ℕ) (hi : i < (a :: b :: rest).length)
    (hro4 : (pairVerdict a b hs sz hz).1 = Status.Red ∨
      (pairVerdict a b hs sz hz).2 = Status.Red ∨
      (pairVerdict a b hs sz hz).1 = Status.Orange ∨
      (pairVerdict a b hs sz hz).2 = Status.Orange)
    (hav : ((a :: b :: rest).getD i default).is_avoiding = true) :
    (((colregsStep at2 (a :: b :: rest) hs sz hz).2.2).getD i default).is_avoiding = true := by
  simp only [colregsStep]
  by_cases hR : (pairVerdict a b hs sz hz).1 = Status.Red ∨
      (pairVerdict a b hs sz hz).2 = Status.Red
  · rw [if_pos hR]
    match i, hi with
    | 0, _ =>
      refine (handle_red_avoid _ _).1 ?_
      rw [(assign_roles_avoid at2 _ _ _).1]
      simpa using hav
    | 1, _ =>
      refine (handle_red_avoid _ _).2 ?_
      rw [(assign_roles_avoid at2 _ _ _).2]
      simpa using hav
    | (n + 2), _ =>
      simpa using hav
  · have hO : (pairVerdict a b hs sz hz).1 = Status.Orange ∨
        (pairVerdict a b hs sz hz).2 = Status.Orange := by tauto
    rw [if_neg hR, if_pos hO]
    match i, hi with
    | 0, _ =>
      refine (handle_orange_avoid at2 _ _).1 ?_
      rw [(assign_roles_avoid at2 _ _ _).1]
      simpa using hav
    | 1, _ =>
      refine (handle_orange_avoid at2 _ _).2 ?_
      rw [(assign_roles_avoid at2 _ _ _).2]
      simpa using hav
    | (n + 2), _ =>
      simpa using hav

theorem detect_green_safety (a b : Ship) (hs : ℕ) (sz hz : ℚ)
    (hg : detect_future_collision a b hs sz hz = (Status.Green, Status.Green)) :
    check_future_safety a b hs sz hz = true := by
  simp only [detect_future_collision] at hg
  simp only [check_future_safety]
  by_cases hgt : dGt (distSq a.cx_nm a.cy_nm b.cx_nm b.cy_nm) hz = true
  · rw [if_pos hgt]
  · rw [if_neg hgt] at hg ⊢
    by_cases hlt : dLt (distSq a.cx_nm a.cy_nm b.cx_nm b.cy_nm) (2 * sz) = true
    · rw [if_pos hlt] at hg
      exact absurd hg (by simp)
    · rw [if_neg hlt] at hg
      by_cases hfh : futureHit a b hs (2 * sz) = true
      · rw [if_pos hfh] at hg
        exact absurd hg (by simp)
      · simp [bool_eq_false_of_ne_true hfh]

theorem pairVerdict_green_safety (a b : Ship) (hs : ℕ) (sz hz : ℚ)
    (hg : pairVerdict a b hs sz hz = (Status.Green, Status.Green)) :
    check_future_safety a b hs sz hz = true := by
  by_cases hd : (a.in_danger || b.in_danger) = true
  · simp only [pairVerdict] at hg
    rw [if_pos hd] at hg
    by_cases hc : (decide (detect_future_collision a b hs sz hz =
        (Status.Green, Status.Green)) && !check_future_safety a b hs sz hz) = true
    · rw [if_pos hc] at hg
      exact absurd hg (by simp)
    · rw [if_neg hc] at hg
      simp only [Bool.and_eq_true, decide_eq_true_eq, Bool.not_eq_true', not_and] at hc
      have hns := hc hg
      cases hsf : check_future_safety a b hs sz hz
      · exact absurd hsf hns
      · rfl
  · simp only [pairVerdict] at hg
    rw [if_neg hd] at hg
    exact detect_green_safety a b hs sz hz hg

theorem colregsStep_green (at2 : ℚ → ℚ → ℚ) (a b : Ship) (rest : List Ship)
    (hs : ℕ) (sz hz : ℚ)
    (hnR : ¬((pairVerdict a b hs sz hz).1 = Status.Red ∨
      (pairVerdict a b hs sz hz).2 = Status.Red))
    (hnO : ¬((pairVerdict a b hs sz hz).1 = Status.Orange ∨
      (pairVerdict a b hs sz hz).2 = Status.Orange)) :
    colregsStep at2 (a :: b :: rest) hs sz hz =
      ([(pairVerdict a b hs sz hz).1, (pairVerdict a b hs sz hz).2],
       (revertAll at2 0 (a.set_status (pairVerdict a b hs sz hz).1 ::
         b.set_status (pairVerdict a b hs sz hz).2 :: rest)).1,
       (revertAll at2 0 (a.set_status (pairVerdict a b hs sz hz).1 ::
         b.set_status (pairVerdict a b hs sz hz).2 :: rest)).2) := by
  simp only [colregsStep]
  rw [if_neg hnR, if_neg hnO]

theorem revertAll_clears (at2 : ℚ → ℚ → ℚ) (l : List Ship) : ∀ (k i : ℕ),
    i < l.length →
    (l.getD i default).is_avoiding = true →
    ((revertAll at2 k l).2.getD i default).is_avoiding = false := by
  induction l with
  | nil =>
    intro k i hi
    simp at hi
  | cons s t ih =>
    intro k i hi hsv
    cases i with
    | zero =>
      simp only [revertAll]
      rw [if_pos (by simpa using hsv)]
      rfl
    | succ j =>
      simp only [revertAll]
      by_cases hsv0 : s.is_avoiding = true
      · rw [if_pos hsv0]
        show ((revertAll at2 (k + 1) t).2.getD j default).is_avoiding = false
        exact ih (k + 1) j (by simpa using hi) (by simpa using hsv)
      · rw [if_neg hsv0]
        show ((revertAll at2 (k + 1) t).2.getD j default).is_avoiding = false
        exact ih (k + 1) j (by simpa using hi) (by simpa using hsv)

theorem revertAll_acts_mem (at2 : ℚ → ℚ → ℚ) (l : List Ship) : ∀ (k : ℕ) (ac : Action),
    ac ∈ (revertAll at2 k l).1 ↔
      ∃ i, i < l.length ∧ (l.getD i default).is_avoiding = true ∧
        ac ∈ (revert_ship at2 (k + i) (l.getD i default)).1 := by
  induction l with
  | nil =>
    intro k ac
    simp [revertAll]
  | cons s t ih =>
    intro k ac
    simp only [revertAll]
    by_cases hsv : s.is_avoiding = true
    · rw [if_pos hsv]
      show ac ∈ (revert_ship at2 k s).1 ++ (revertAll at2 (k + 1) t).1 ↔ _
      rw [List.mem_append, ih (k + 1) ac]
      constructor
      · rintro (hm | ⟨i, hi, hiv, him⟩)
        · exact ⟨0, by simp, by simpa using hsv, by simpa using hm⟩
        · refine ⟨i + 1, by simpa using Nat.succ_lt_succ hi, by simpa using hiv, ?_⟩
          have hk : k + (i + 1) = (k + 1) + i := by omega
          rw [hk]
          simpa using him
      · rintro ⟨i, hi, hiv, him⟩
        cases i with
        | zero =>
          left
          simpa using him
        | succ j =>
          right
          refine ⟨j, by simpa using hi, by simpa using hiv, ?_⟩
          have hk : (k + 1) + j = k + (j + 1) := by omega
          rw [hk]
          simpa using him
    · rw [if_neg hsv]
      show ac ∈ (revertAll at2 (k + 1) t).1 ↔ _
      rw [ih (k + 1) ac]
      constructor
      · rintro ⟨i, hi, hiv, him⟩
        refine ⟨i + 1, by simpa using Nat.succ_lt_succ hi, by simpa using hiv, ?_⟩
        have hk : k + (i + 1) = (k + 1) + i := by omega
        rw [hk]
        simpa using him
      · rintro ⟨i, hi, hiv, him⟩
        cases i with
        | zero =>
          exact absurd (by simpa using hiv) hsv
        | succ j =>
          refine ⟨j, by simpa using hi, by simpa using hiv, ?_⟩
          have hk : (k + 1) + j = k + (j + 1) := by omega
          rw [hk]
          simpa using him

theorem status_eq_green_of_ne (st : Status) (hnr : st ≠ Status.Red)
    (hno : st ≠ Status.Orange) : st = Status.Green := by
  cases st
  · rfl
  · exact absurd rfl hno
  · exact absurd rfl hnr

theorem set_list_getD (at2 : ℚ → ℚ → ℚ) (a b : Ship) (rest : List Ship)
    (st1 st2 : Status) (i : ℕ) :
    ((a.set_status st1 :: b.set_status st2 :: rest).getD i default).is_avoiding =
      ((a :: b :: rest).getD i default).is_avoiding ∧
    revert_heading_delta at2 ((a.set_status st1 :: b.set_status st2 :: rest).getD i default) =
      revert_heading_delta at2 ((a :: b :: rest).getD i default) ∧
    ((a.set_status st1 :: b.set_status st2 :: rest).getD i default).maxSpeed =
      ((a :: b :: rest).getD i default).maxSpeed ∧
    ((a.set_status st1 :: b.set_status st2 :: rest).getD i default).currentSpeed =
      ((a :: b :: rest).getD i default).currentSpeed := by
  match i with
  | 0 => exact ⟨rfl, rfl, rfl, rfl⟩
  | 1 => exact ⟨rfl, rfl, rfl, rfl⟩
  | (n + 2) => exact ⟨rfl, rfl, rfl, rfl⟩

/-- C4: a tracked ship's is_avoiding flag goes from true to false in a
colregsStep only when _check_future_safety confirms the pair clear across
the ENTIRE horizon (the Green branch is reachable no other way); the revert
delta is the signed shortest heading difference — congruent mod 360 to the
difference between the direct bearing to the destination and the current
heading, and lying in [-180,180) — together with the speed delta restoring
maxSpeed; the Action is emitted exactly when either delta exceeds 1e-3, and
otherwise no emitted action targets the ship even though the flag is still
cleared. -/
theorem revert_transition (at2 : ℚ → ℚ → ℚ) (a b : Ship) (rest : List Ship)
    (hs : ℕ) (sz hz : ℚ) (i : ℕ) (hi : i < (a :: b :: rest).length)
    (hav : ((a :: b :: rest).getD i default).is_avoiding = true)
    (hout : (((colregsStep at2 (a :: b :: rest) hs sz hz).2.2).getD i default).is_avoiding = false) :
    check_future_safety a b hs sz hz = true ∧
    (-180 ≤ revert_heading_delta at2 ((a :: b :: rest).getD i default) ∧
     revert_heading_delta at2 ((a :: b :: rest).getD i default) < 180) ∧
    (∃ m : ℤ, revert_heading_delta at2 ((a :: b :: rest).getD i default) =
      desired_heading_to_dest at2 ((a :: b :: rest).getD i default) -
        get_heading_from_direction at2 ((a :: b :: rest).getD i default) + 360 * m) ∧
    (if |revert_heading_delta at2 ((a :: b :: rest).getD i default)| > 1 / 1000 ∨
        |((a :: b :: rest).getD i default).maxSpeed -
          ((a :: b :: rest).getD i default).currentSpeed| > 1 / 1000 then
      (⟨i, revert_heading_delta at2 ((a :: b :: rest).getD i default),
        ((a :: b :: rest).getD i default).maxSpeed -
          ((a :: b :: rest).getD i default).currentSpeed⟩ : Action) ∈
        (colregsStep at2 (a :: b :: rest) hs sz hz).2.1
     else ∀ ac ∈ (colregsStep at2 (a :: b :: rest) hs sz hz).2.1, ac.shipId ≠ i) := by
  have hnro4 : ¬((pairVerdict a b hs sz hz).1 = Status.Red ∨
      (pairVerdict a b hs sz hz).2 = Status.Red ∨
      (pairVerdict a b hs sz hz).1 = Status.Orange ∨
      (pairVerdict a b hs sz hz).2 = Status.Orange) := by
    intro h4
    have hp := colregsStep_avoid_persists at2 a b rest hs sz hz i hi h4 hav
    rw [hout] at hp
    exact absurd hp (by simp)
  have hnR : ¬((pairVerdict a b hs sz hz).1 = Status.Red ∨
      (pairVerdict a b hs sz hz).2 = Status.Red) := by tauto
  have hnO : ¬((pairVerdict a b hs sz hz).1 = Status.Orange ∨
      (pairVerdict a b hs sz hz).2 = Status.Orange) := by tauto
  have hgg : pairVerdict a b hs sz hz = (Status.Green, Status.Green) := by
    have h12 := pairVerdict_fst_eq_snd a b hs sz hz
    have h1 := status_eq_green_of_ne (pairVerdict a b hs sz hz).1
      (fun he => hnR (Or.inl he)) (fun he => hnO (Or.inl he))
    have h2 : (pairVerdict a b hs sz hz).2 = Status.Green := h12 ▸ h1
    rw [Prod.ext_iff]
    exact ⟨h1, h2⟩
  refine ⟨pairVerdict_green_safety a b hs sz hz hgg,
    ⟨(revert_heading_delta_facts at2 _).1, (revert_heading_delta_facts at2 _).2.1⟩,
    (revert_heading_delta_facts at2 _).2.2, ?_⟩
  have hstep := colregsStep_green at2 a b rest hs sz hz hnR hnO
  rw [hstep]
  by_cases hcond : |revert_heading_delta at2 ((a :: b :: rest).getD i default)| > 1 / 1000 ∨
      |((a :: b :: rest).getD i default).maxSpeed -
        ((a :: b :: rest).getD i default).currentSpeed| > 1 / 1000
  · rw [if_pos hcond]
    refine (revertAll_acts_mem at2 _ 0 _).mpr ⟨i, by simpa using hi, ?_, ?_⟩
    · rw [(set_list_getD at2 a b rest _ _ i).1]
      exact hav
    · refine (revert_ship_mem at2 (0 + i) _ _).mpr ⟨?_, ?_⟩
      · rw [(set_list_getD at2 a b rest _ _ i).2.1,
          (set_list_getD at2 a b rest _ _ i).2.2.1,
          (set_list_getD at2 a b rest _ _ i).2.2.2]
        exact hcond
      · rw [(set_list_getD at2 a b rest _ _ i).2.1,
          (set_list_getD at2 a b rest _ _ i).2.2.1,
          (set_list_getD at2 a b rest _ _ i).2.2.2]
        simp
  · rw [if_neg hcond]
    intro ac hac hid
    obtain ⟨j, hj, hjav, hjm⟩ := (revertAll_acts_mem at2 _ 0 ac).mp hac
    obtain ⟨hjcond, hjeq⟩ := (revert_ship_mem at2 (0 + j) _ ac).mp hjm
    have hsid : ac.shipId = j := by
      rw [hjeq]
      simp
    have hji : j = i := by
      rw [hsid] at hid
      exact hid
    subst hji
    rw [(set_list_getD at2 a b rest _ _ j).2.1,
      (set_list_getD at2 a b rest _ _ j).2.2.1,
      (set_list_getD at2 a b rest _ _ j).2.2.2] at hjcond
    exact hcond hjcond

/-- Witness for C4 at concrete inputs: ship 0 is avoiding, the pair is far
beyond the horizon (so the verdict is Green and the full-horizon safety
check passes), and the revert emits the action restoring maxSpeed (speed
delta 10 exceeds 1e-3), with heading delta 0 under the concrete angle
oracle. -/
theorem revert_transition_witness :
    check_future_safety
      ⟨0, 0, 1, 0, 10, 20, 5, 5, Status.Green, none, Role.unknown, true, false⟩
      ⟨100, 100, 1, 0, 10, 10, 120, 120, Status.Green, none, Role.unknown, false, false⟩
      2 (1/10) 5 = true ∧
    (if |revert_heading_delta (fun _ _ => 0)
          (([⟨0, 0, 1, 0, 10, 20, 5, 5, Status.Green, none, Role.unknown, true, false⟩,
             ⟨100, 100, 1, 0, 10, 10, 120, 120, Status.Green, none, Role.unknown, false, false⟩] :
            List Ship).getD 0 default)| > 1 / 1000 ∨
        |(([⟨0, 0, 1, 0, 10, 20, 5, 5, Status.Green, none, Role.unknown, true, false⟩,
            ⟨100, 100, 1, 0, 10, 10, 120, 120, Status.Green, none, Role.unknown, false, false⟩] :
           List Ship).getD 0 default).maxSpeed -
          (([⟨0, 0, 1, 0, 10, 20, 5, 5, Status.Green, none, Role.unknown, true, false⟩,
             ⟨100, 100, 1, 0, 10, 10, 120, 120, Status.Green, none, Role.unknown, false, false⟩] :
            List Ship).getD 0 default).currentSpeed| > 1 / 1000 then
      (⟨0, revert_heading_delta (fun _ _ => 0)
          (([⟨0, 0, 1, 0, 10, 20, 5, 5, Status.Green, none, Role.unknown, true, false⟩,
             ⟨100, 100, 1, 0, 10, 10, 120, 120, Status.Green, none, Role.unknown, false, false⟩] :
            List Ship).getD 0 default),
        (([⟨0, 0, 1, 0, 10, 20, 5, 5, Status.Green, none, Role.unknown, true, false⟩,
           ⟨100, 100, 1, 0, 10, 10, 120, 120, Status.Green, none, Role.unknown, false, false⟩] :
          List Ship).getD 0 default).maxSpeed -
        (([⟨0, 0, 1, 0, 10, 20, 5, 5, Status.Green, none, Role.unknown, true, false⟩,
           ⟨100, 100, 1, 0, 10, 10, 120, 120, Status.Green, none, Role.unknown, false, false⟩] :
          List Ship).getD 0 default).currentSpeed⟩ : Action) ∈
        (colregsStep (fun _ _ => 0)
          [⟨0, 0, 1, 0, 10, 20, 5, 5, Status.Green, none, Role.unknown, true, false⟩,
           ⟨100, 100, 1, 0, 10, 10, 120, 120, Status.Green, none, Role.unknown, false, false⟩]
          2 (1/10) 5).2.1
     else ∀ ac ∈ (colregsStep (fun _ _ => 0)
          [⟨0, 0, 1, 0, 10, 20, 5, 5, Status.Green, none, Role.unknown, true, false⟩,
           ⟨100, 100, 1, 0, 10, 10, 120, 120, Status.Green, none, Role.unknown, false, false⟩]
          2 (1/10) 5).2.1, ac.shipId ≠ 0) := by
  have h := revert_transition (fun _ _ => 0)
    ⟨0, 0, 1, 0, 10, 20, 5, 5, Status.Green, none, Role.unknown, true, false⟩
    ⟨100, 100, 1, 0, 10, 10, 120, 120, Status.Green, none, Role.unknown, false, false⟩
    [] 2 (1/10) 5 0 (by norm_num) rfl
    (by
      norm_num [colregsStep, pairVerdict, detect_future_collision, dGt, dLt, distSq,
        revertAll, revert_ship, Ship.set_status]
      simp [revertAll, revert_ship])
  exact ⟨h.1, h.2.2.2⟩

theorem is_overtaking_speed (at2 : ℚ → ℚ → ℚ) (o t : Ship)
    (h : is_overtaking at2 o t = true) : o.currentSpeed > t.currentSpeed := by
  simp only [is_overtaking] at h
  split_ifs at h <;> simp_all

theorem determine_overtaking_implies (at2 : ℚ → ℚ → ℚ) (a b : Ship)
    (h : determine_colreg_scenario at2 a b = ScenarioKind.overtaking) :
    (is_overtaking at2 a b || is_overtaking at2 b a) = true := by
  simp only [determine_colreg_scenario] at h
  split_ifs at h <;> simp_all

theorem assign_roles_headOn (at2 : ℚ → ℚ → ℚ) (a b : Ship) :
    assign_roles at2 a b ScenarioKind.headOn =
      ({a with role := Role.giveWay}, {b with role := Role.giveWay}) := by
  simp [assign_roles]

theorem assign_roles_crossing (at2 : ℚ → ℚ → ℚ) (a b : Ship) :
    assign_roles at2 a b ScenarioKind.crossing =
      (if 0 ≤ relative_bearing at2 a b ∧ relative_bearing at2 a b < 180 then
        ({a with role := Role.giveWay}, {b with role := Role.standOn})
      else ({a with role := Role.standOn}, {b with role := Role.giveWay})) := by
  simp [assign_roles]

theorem assign_roles_overtaking (at2 : ℚ → ℚ → ℚ) (a b : Ship) :
    assign_roles at2 a b ScenarioKind.overtaking =
      (if is_overtaking at2 a b then
        ({a with role := Role.giveWay}, {b with role := Role.standOn})
      else ({a with role := Role.standOn}, {b with role := Role.giveWay})) := by
  simp [assign_roles]

/-- C5 amended: role assignment in the pairwise ColregsAlgorithm matches
the claim — head-on makes both vessels give-way; crossing makes exactly one
vessel give-way, namely the one with the other at relative bearing in
[0,180); a classified overtaking encounter gives way to the strictly
faster vessel satisfying the _is_overtaking geometry.  The tree-search
variant also makes both give-way on head-on and exactly one give-way on
its crossing labels, but its give-way side is the vessel with the other at
NEGATIVE normalized relative bearing, in [-112.5,-5) — not [0,180) — and
its overtaking branch picks the faster vessel by speed comparison alone. -/
theorem roles_amended :
    (∀ (at2 : ℚ → ℚ → ℚ) (a b : Ship),
      (determine_colreg_scenario at2 a b = ScenarioKind.headOn →
        (assign_roles at2 a b (determine_colreg_scenario at2 a b)).1.role = Role.giveWay ∧
        (assign_roles at2 a b (determine_colreg_scenario at2 a b)).2.role = Role.giveWay) ∧
      (determine_colreg_scenario at2 a b = ScenarioKind.crossing →
        (((assign_roles at2 a b (determine_colreg_scenario at2 a b)).1.role = Role.giveWay ∧
          (assign_roles at2 a b (determine_colreg_scenario at2 a b)).2.role = Role.standOn) ∨
         ((assign_roles at2 a b (determine_colreg_scenario at2 a b)).1.role = Role.standOn ∧
          (assign_roles at2 a b (determine_colreg_scenario at2 a b)).2.role = Role.giveWay)) ∧
        ((assign_roles at2 a b (determine_colreg_scenario at2 a b)).1.role = Role.giveWay ↔
          (0 ≤ relative_bearing at2 a b ∧ relative_bearing at2 a b < 180))) ∧
      (determine_colreg_scenario at2 a b = ScenarioKind.overtaking →
        (((assign_roles at2 a b (determine_colreg_scenario at2 a b)).1.role = Role.giveWay ∧
          (assign_roles at2 a b (determine_colreg_scenario at2 a b)).2.role = Role.standOn ∧
          is_overtaking at2 a b = true ∧ a.currentSpeed > b.currentSpeed) ∨
         ((assign_roles at2 a b (determine_colreg_scenario at2 a b)).1.role = Role.standOn ∧
          (assign_roles at2 a b (determine_colreg_scenario at2 a b)).2.role = Role.giveWay ∧
          is_overtaking at2 b a = true ∧ b.currentSpeed > a.currentSpeed)))) ∧
    (∀ (heading_i_deg phi_deg speed_i speed_j : ℚ),
      (tree_determine_scenario heading_i_deg phi_deg = ScenarioKind.headOn →
        tree_assign_roles (tree_determine_scenario heading_i_deg phi_deg) speed_i speed_j =
          (Role.giveWay, Role.giveWay)) ∧
      (tree_determine_scenario heading_i_deg phi_deg = ScenarioKind.crossingGiveWay ∨
       tree_determine_scenario heading_i_deg phi_deg = ScenarioKind.crossingStandOn →
        tree_assign_roles (tree_determine_scenario heading_i_deg phi_deg) speed_i speed_j =
          (Role.giveWay, Role.standOn) ∨
        tree_assign_roles (tree_determine_scenario heading_i_deg phi_deg) speed_i speed_j =
          (Role.standOn, Role.giveWay)) ∧
      (tree_determine_scenario heading_i_deg phi_deg = ScenarioKind.crossingGiveWay ↔
        (-112.5 ≤ tree_norm_q heading_i_deg phi_deg ∧
         tree_norm_q heading_i_deg phi_deg < -5)) ∧
      (tree_determine_scenario heading_i_deg phi_deg = ScenarioKind.overtaking →
        tree_assign_roles (tree_determine_scenario heading_i_deg phi_deg) speed_i speed_j =
          (if speed_i > speed_j then (Role.giveWay, Role.standOn)
           else (Role.standOn, Role.giveWay)))) := by
  constructor
  · intro at2 a b
    refine ⟨?_, ?_, ?_⟩
    · intro hsc
      rw [hsc, assign_roles_headOn]
      exact ⟨rfl, rfl⟩
    · intro hsc
      rw [hsc, assign_roles_crossing]
      by_cases hbrg : 0 ≤ relative_bearing at2 a b ∧ relative_bearing at2 a b < 180
      · rw [if_pos hbrg]
        exact ⟨Or.inl ⟨rfl, rfl⟩, by simp [hbrg]⟩
      · rw [if_neg hbrg]
        refine ⟨Or.inr ⟨rfl, rfl⟩, ?_⟩
        constructor
        · intro he
          exact absurd he (by simp)
        · intro hb
          exact absurd hb hbrg
    · intro hsc
      have hov := determine_overtaking_implies at2 a b hsc
      rw [hsc, assign_roles_overtaking]
      by_cases hab : is_overtaking at2 a b = true
      · rw [if_pos hab]
        exact Or.inl ⟨rfl, rfl, hab, is_overtaking_speed at2 a b hab⟩
      · rw [if_neg hab]
        have hba : is_overtaking at2 b a = true := by
          rw [Bool.or_eq_true] at hov
          tauto
        exact Or.inr ⟨rfl, rfl, hba, is_overtaking_speed at2 b a hba⟩
  · intro heading_i_deg phi_deg speed_i speed_j
    refine ⟨?_, ?_, ?_, ?_⟩
    · intro hsc
      rw [hsc]
      simp [tree_assign_roles]
    · intro hsc
      rcases hsc with hsc | hsc <;> rw [hsc]
      · left
        simp [tree_assign_roles]
      · right
        simp [tree_assign_roles]
    · constructor
      · intro hsc
        simp only [tree_determine_scenario] at hsc
        split_ifs at hsc <;> simp_all
      · intro hband
        simp only [tree_determine_scenario]
        rw [if_neg (by rintro ⟨h5, -⟩; linarith [hband.2]), if_pos hband]
    · intro hsc
      rw [hsc]
      simp [tree_assign_roles]

/-- C5 counterexample: with the first tree-search vessel heading 0 degrees
and the other bearing exactly 90 degrees (math.degrees(math.atan2(1,0)),
exactly representable), the other vessel is on the first vessel's starboard
side per the claim's [0,180) convention, so the claim says the first vessel
is give-way; tree_search classifies this crossing-stand-on and assigns the
first vessel STAND-ON. -/
theorem tree_crossing_side_counterexample :
    tree_determine_scenario 0 90 = ScenarioKind.crossingStandOn ∧
    tree_assign_roles (tree_determine_scenario 0 90) 10 10 =
      (Role.standOn, Role.giveWay) ∧
    ((0 : ℚ) ≤ 90 ∧ (90 : ℚ) < 180) := by
  refine ⟨?_, ?_, by norm_num⟩ <;>
    · norm_num [tree_determine_scenario, tree_norm_q, tree_assign_roles]
      try simp

/-- Witness for C5 amended at concrete inputs: a crossing pair under the
pairwise algorithm (constant angle oracle 90 degrees, equal speeds) makes
the first ship give-way since the relative bearing evaluates to 0; and the
tree-search classifier on normalized bearing -90 produces
crossing-give-way, so exactly one of its crossing role patterns holds. -/
theorem roles_amended_witness :
    (assign_roles (fun _ _ => 90)
      ⟨0, 0, 0, 1, 10, 10, 0, 5, Status.Green, none, Role.unknown, false, false⟩
      ⟨0, 1, 0, 1, 10, 10, 0, 6, Status.Green, none, Role.unknown, false, false⟩
      (determine_colreg_scenario (fun _ _ => 90)
        ⟨0, 0, 0, 1, 10, 10, 0, 5, Status.Green, none, Role.unknown, false, false⟩
        ⟨0, 1, 0, 1, 10, 10, 0, 6, Status.Green, none, Role.unknown, false, false⟩)).1.role =
      Role.giveWay ∧
    tree_determine_scenario 0 (-90) = ScenarioKind.crossingGiveWay ∧
    (tree_assign_roles (tree_determine_scenario 0 (-90)) 5 9 = (Role.giveWay, Role.standOn) ∨
     tree_assign_roles (tree_determine_scenario 0 (-90)) 5 9 = (Role.standOn, Role.giveWay)) := by
  refine ⟨?_, ?_, ?_⟩
  · have hsc : determine_colreg_scenario (fun _ _ => 90)
        ⟨0, 0, 0, 1, 10, 10, 0, 5, Status.Green, none, Role.unknown, false, false⟩
        ⟨0, 1, 0, 1, 10, 10, 0, 6, Status.Green, none, Role.unknown, false, false⟩ =
        ScenarioKind.crossing := by
      norm_num [determine_colreg_scenario, is_overtaking, relative_bearing,
        get_heading_from_direction, pymod]
    exact ((roles_amended.1 (fun _ _ => 90)
      ⟨0, 0, 0, 1, 10, 10, 0, 5, Status.Green, none, Role.unknown, false, false⟩
      ⟨0, 1, 0, 1, 10, 10, 0, 6, Status.Green, none, Role.unknown, false, false⟩).2.1 hsc).2.mpr
      (by norm_num [relative_bearing, get_heading_from_direction, pymod])
  · exact (roles_amended.2 0 (-90) 5 9).2.2.1.mpr (by norm_num [tree_norm_q])
  · exact (roles_amended.2 0 (-90) 5 9).2.1
      (Or.inl ((roles_amended.2 0 (-90) 5 9).2.2.1.mpr (by norm_num [tree_norm_q])))

end SeaSafe
